import Mathlib

/-!
# Verification of the fxbox/adapters registry back-end

Shallow embedding of `src/src/backend.rs` (the `AdapterManagerState` registry and
watch engine) and of the public façade `src/src/manager.rs`, together with proofs
about the claims of the specification.

Modelling conventions:

* Rust `HashMap<K, V>` becomes an association list `Map K V`.  All insertions in the
  source are guarded by a vacancy check (either `Entry::Vacant` or
  `transact::InsertInMap`), so keys stay unique and prepending a fresh pair models
  `insert`; `mapErase` removes the first (hence, only) entry with the given key, and
  `mapModify` rewrites the first entry in place, which models mutating the value
  found by `get_mut`.  `HashSet<T>` becomes a duplicate-free `List T`.
* `Rc<RefCell<Service>>` aliasing: the canonical `Service` value lives in
  `serviceById`; the adapter's own service table (`AdapterData::services`) is used by
  the source only as a key set with vacancy checks, so it is modelled as
  `Map ServiceId Unit`.
* `Rc<WatcherData>` sharing (registry, getter back-references, guard) is modelled by
  keeping the canonical record in the `WatchMap` keyed by `key : Nat`; getters store
  the watcher keys (the source hashes and compares `WatcherData` by `key`).
* The external crate `foxbox_taxonomy` (identifiers, channels, selectors, values) is
  out of scope of the repository; its types are modelled with the attributes the
  registry reads: ids are strings, a channel carries id / service / adapter / tags /
  kind, and a selector is a conjunction of optional fields plus a tag subset,
  a list of selectors matching disjunctively (spec §4.4 and §6, and the builder
  calls `with_id` / `with_parent` / `with_kind` / `with_tags` used by the tests).
* The `Adapter` trait is external as well: adapter behaviour is passed to the
  dispatch functions as an environment (`FetchEnv`, `SendEnv`), and the registry
  state itself stays first-order and decidable.
* Fallible operations return `(Except AdapterError Unit) × ManagerState`: the Rust
  methods take `&mut self` and may mutate the store even on error paths, so the
  state is returned alongside the result in every case.
-/

/-- Tags are interned strings (`foxbox_taxonomy`). -/
abbrev Tag := String

/-- `Id<AdapterId>`. -/
abbrev AdapterId := String

/-- `Id<ServiceId>`. -/
abbrev ServiceId := String

/-- `Id<Getter>`. -/
abbrev GetterId := String

/-- `Id<Setter>`. -/
abbrev SetterId := String

/-- Association-list model of `HashMap K V`. -/
abbrev Map (K V : Type) := List (K × V)

/-- `HashMap::get`: the first entry with the given key (keys are unique in maps
built by the source, which always checks vacancy before inserting). -/
def mapFind? {K V : Type} [DecidableEq K] : Map K V → K → Option V
  | [], _ => none
  | p :: rest, k => if p.1 = k then some p.2 else mapFind? rest k

/-- `HashMap::contains_key`. -/
def mapContains {K V : Type} [DecidableEq K] (m : Map K V) (k : K) : Bool :=
  (mapFind? m k).isSome

/-- `HashMap::remove`: drops the first (only) entry with the given key. -/
def mapErase {K V : Type} [DecidableEq K] : Map K V → K → Map K V
  | [], _ => []
  | p :: rest, k => if p.1 = k then rest else p :: mapErase rest k

/-- In-place mutation of the entry found by `get_mut`: rewrites the first entry
with the given key. -/
def mapModify {K V : Type} [DecidableEq K] : Map K V → K → (V → V) → Map K V
  | [], _, _ => []
  | p :: rest, k, f => if p.1 = k then (p.1, f p.2) :: rest else p :: mapModify rest k f

/-- `HashMap::keys`. -/
def mapKeys {K V : Type} (m : Map K V) : List K := m.map (·.1)

/-- `HashSet::insert`: no-op when the element is already present. -/
def setInsert {α : Type} [DecidableEq α] (s : List α) (a : α) : List α :=
  if s.contains a then s else s ++ [a]

/-- The value kind spoken by a channel (`foxbox_taxonomy::values::ChannelKind`,
restricted to the kinds exercised by the repository's tests). -/
inductive ChannelKind
  | onOff
  | openClosed
deriving DecidableEq, Repr

/-- A typed value (`foxbox_taxonomy::values::Value`, same restriction). -/
inductive Value
  | onOff (b : Bool)
  | openClosed (b : Bool)
deriving DecidableEq, Repr

/-- The kind a value actually carries. -/
def Value.kind : Value → ChannelKind
  | .onOff _ => .onOff
  | .openClosed _ => .openClosed

/-- A range of values (`foxbox_taxonomy::values::Range`; its internal structure is
never inspected by the registry, only forwarded to adapters). -/
structure Range where
  low : Nat
  high : Nat
deriving DecidableEq, Repr

/-- `foxbox_taxonomy::util::Exactly`, used for the optional value filter of a
watch: `Exactly(r)` watches range `r`, `Always` watches every new value, and the
remaining case makes the watch topology-only (backend.rs:821-831). -/
inductive Exactly (α : Type)
  | always
  | exactly (v : α)
  | never
deriving DecidableEq, Repr

/-- `foxbox_taxonomy::api::Error` as the back-end uses it (`AdapterError` variants
observed in backend.rs plus the variants the repository's tests require:
`InvalidInitialService` at tests/test_manager.rs:337 and `TypeError` at
tests/test_manager.rs:1020). -/
inductive AdapterError
  | noSuchAdapter (id : AdapterId)
  | duplicateAdapter (id : AdapterId)
  | noSuchService (id : ServiceId)
  | duplicateService (id : ServiceId)
  | noSuchGetter (id : GetterId)
  | duplicateGetter (id : GetterId)
  | noSuchSetter (id : SetterId)
  | duplicateSetter (id : SetterId)
  | conflictingAdapter (expected found : AdapterId)
  | invalidInitialService
  | typeError (got expected : ChannelKind)
deriving DecidableEq, Repr

/-- `foxbox_taxonomy::api::Error` as seen by API clients: the back-end wraps
adapter-level errors with `APIError::AdapterError` (backend.rs:747, 786). -/
inductive APIError
  | adapterError (e : AdapterError)
deriving DecidableEq, Repr

instance {ε α : Type} [DecidableEq ε] [DecidableEq α] : DecidableEq (Except ε α) := fun x y =>
  match x, y with
  | .ok a, .ok b =>
      if h : a = b then isTrue (by rw [h]) else isFalse (fun hh => by cases hh; exact h rfl)
  | .error a, .error b =>
      if h : a = b then isTrue (by rw [h]) else isFalse (fun hh => by cases hh; exact h rfl)
  | .ok _, .error _ => isFalse (by intro h; cases h)
  | .error _, .ok _ => isFalse (by intro h; cases h)

/-- `Channel<Getter>` (taxonomy): the attributes the registry reads.  `kind` is
`mechanism.kind`. -/
structure GetterChannel where
  id : GetterId
  service : ServiceId
  adapter : AdapterId
  tags : List Tag
  kind : ChannelKind
deriving DecidableEq, Repr

/-- `Channel<Setter>` (taxonomy): the attributes the registry reads. -/
structure SetterChannel where
  id : SetterId
  service : ServiceId
  adapter : AdapterId
  tags : List Tag
  kind : ChannelKind
deriving DecidableEq, Repr

/-- `GetterSelector`: a conjunction of optional conditions; absent fields match
everything (spec §4.4/§6). -/
structure GetterSelector where
  id : Option GetterId := none
  parent : Option ServiceId := none
  kind : Option ChannelKind := none
  tags : List Tag := []
deriving DecidableEq, Repr

/-- `Channel<Getter>::matches(GetterSelector)`. -/
def GetterSelector.matchesChan (sel : GetterSelector) (c : GetterChannel) : Bool :=
  (match sel.id with | none => true | some i => i = c.id) &&
  (match sel.parent with | none => true | some p => p = c.service) &&
  (match sel.kind with | none => true | some k => k = c.kind) &&
  sel.tags.all (fun t => c.tags.contains t)

/-- `SetterSelector`. -/
structure SetterSelector where
  id : Option SetterId := none
  parent : Option ServiceId := none
  kind : Option ChannelKind := none
  tags : List Tag := []
deriving DecidableEq, Repr

/-- `Channel<Setter>::matches(SetterSelector)`. -/
def SetterSelector.matchesChan (sel : SetterSelector) (c : SetterChannel) : Bool :=
  (match sel.id with | none => true | some i => i = c.id) &&
  (match sel.parent with | none => true | some p => p = c.service) &&
  (match sel.kind with | none => true | some k => k = c.kind) &&
  sel.tags.all (fun t => c.tags.contains t)

/-- `Service` (taxonomy): id, owning adapter, tag set, and the two channel maps. -/
structure Service where
  id : ServiceId
  adapter : AdapterId
  tags : List Tag
  getters : Map GetterId GetterChannel
  setters : Map SetterId SetterChannel
deriving DecidableEq, Repr

/-- `ServiceSelector`: optional id, optional parent adapter, required tag subset. -/
structure ServiceSelector where
  id : Option ServiceId := none
  adapter : Option AdapterId := none
  tags : List Tag := []
deriving DecidableEq, Repr

/-- `Service::matches(ServiceSelector)`. -/
def ServiceSelector.matchesService (sel : ServiceSelector) (s : Service) : Bool :=
  (match sel.id with | none => true | some i => i = s.id) &&
  (match sel.adapter with | none => true | some a => a = s.adapter) &&
  sel.tags.all (fun t => s.tags.contains t)

/-- `WatcherData` (backend.rs:140-169).  The event sink `on_event` is a function
value; event delivery is modelled by `triggerWatch` returning the event passed to
the sink, so the record itself stays first-order.  `guards` holds the downstream
`AdapterWatchGuard`s, identified by the channel they watch.  `getters` is the
coverage set, `isDropped` the value of the shared `Arc<AtomicBool>`. -/
structure WatcherData where
  selectors : List GetterSelector
  range : Exactly Range
  key : Nat
  guards : List GetterId
  getters : List GetterId
  isDropped : Bool
deriving DecidableEq, Repr

/-- `WatchMap` (backend.rs:171-197): monotonic key counter plus the key-indexed
watcher records. -/
structure WatchMap where
  counter : Nat
  watchers : Map Nat WatcherData
deriving DecidableEq, Repr

/-- `GetterData` (backend.rs:79-90): the channel plus the watcher back-reference
set (`HashSet<Rc<WatcherData>>`, hashed and compared by `key`, hence a key set). -/
structure GetterData where
  getter : GetterChannel
  watchers : List Nat
deriving DecidableEq, Repr

/-- `GetterData::new`. -/
def GetterData.new (g : GetterChannel) : GetterData := ⟨g, []⟩

/-- `SetterData` (backend.rs:110-119). -/
structure SetterData where
  setter : SetterChannel
deriving DecidableEq, Repr

/-- `AdapterData` (backend.rs:26-42): the `Box<Adapter>` behaviour lives in the
call environments; the service back-reference table is used by the source only
through vacancy checks, key removal and key drain, hence `Map ServiceId Unit`. -/
structure AdapterData where
  services : Map ServiceId Unit
deriving DecidableEq, Repr

/-- `AdapterManagerState` (backend.rs:233-258), minus the `tx` channel sender
(instructions produced for that channel are returned explicitly where needed). -/
structure ManagerState where
  adapterById : Map AdapterId AdapterData
  serviceById : Map ServiceId Service
  getterById : Map GetterId GetterData
  setterById : Map SetterId SetterData
  watchers : WatchMap
deriving DecidableEq, Repr

/-- Modelled from the spec: `transact::InsertInMap::start` (src/src/transact.rs is
declared in lib.rs but is not under src/).  Per spec §4.1: if any key of `pairs`
already exists in the map, the offending key is returned and the map is untouched;
otherwise all pairs are inserted and kept on commit, while release without commit
removes exactly the inserted keys and restores the prior map — accordingly every
early-return error path of the mutators below returns the original state. -/
def insertInMap {K V : Type} [DecidableEq K] (m : Map K V) (pairs : List (K × V)) :
    Except K (Map K V) :=
  match pairs.find? (fun p => mapContains m p.1) with
  | some p => .error p.1
  | none => .ok (pairs.foldl (fun acc p => p :: acc) m)

/-- `AdapterManagerState::aux_remove_service` (backend.rs:272-286): remove the
service from the global table and drop every channel it listed; the lookup failure
is the only error, and the channel removals are unconditional best-effort. -/
def auxRemoveService (st : ManagerState) (id : ServiceId) :
    Except AdapterError Unit × ManagerState :=
  match mapFind? st.serviceById id with
  | none => (.error (.noSuchService id), st)
  | some service =>
    let st1 := { st with serviceById := mapErase st.serviceById id }
    let st2 := { st1 with
      getterById := (mapKeys service.getters).foldl mapErase st1.getterById }
    let st3 := { st2 with
      setterById := (mapKeys service.setters).foldl mapErase st2.setterById }
    (.ok (), st3)

/-- `AdapterManagerState::add_service` (backend.rs:351-411): check every child
channel's adapter, transactionally insert the getters, setters, the adapter
back-reference and the service itself, and commit everything or roll back (per the
`transact` contract, every error path leaves the state as it was). -/
def addService (st : ManagerState) (adapterId : AdapterId) (service : Service) :
    Except AdapterError Unit × ManagerState :=
  match service.getters.find? (fun p => p.2.adapter ≠ adapterId) with
  | some p => (.error (.conflictingAdapter p.2.adapter adapterId), st)
  | none =>
  match insertInMap st.getterById (service.getters.map (fun p => (p.1, GetterData.new p.2))) with
  | .error k => (.error (.duplicateGetter k), st)
  | .ok getterById' =>
  match service.setters.find? (fun p => p.2.adapter ≠ adapterId) with
  | some p => (.error (.conflictingAdapter p.2.adapter adapterId), st)
  | none =>
  match insertInMap st.setterById (service.setters.map (fun p => (p.1, SetterData.mk p.2))) with
  | .error k => (.error (.duplicateSetter k), st)
  | .ok setterById' =>
  match mapFind? st.adapterById adapterId with
  | none => (.error (.noSuchAdapter adapterId), st)
  | some data =>
  match insertInMap data.services [(service.id, ())] with
  | .error k => (.error (.duplicateService k), st)
  | .ok services' =>
  match insertInMap st.serviceById [(service.id, service)] with
  | .error k => (.error (.duplicateService k), st)
  | .ok serviceById' =>
    (.ok (), { st with
      getterById := getterById'
      setterById := setterById'
      serviceById := serviceById'
      adapterById := mapModify st.adapterById adapterId (fun d => { d with services := services' }) })

/-- `AdapterManagerState::remove_service` (backend.rs:421-433): best-effort
`aux_remove_service` with its result ignored, then detach from the adapter's
back-reference table; note that the aux removal has already mutated the store even
when the adapter lookup then fails. -/
def removeService (st : ManagerState) (adapterId : AdapterId) (serviceId : ServiceId) :
    Except AdapterError Unit × ManagerState :=
  let st1 := (auxRemoveService st serviceId).2
  match mapFind? st1.adapterById adapterId with
  | none => (.error (.noSuchAdapter adapterId), st1)
  | some data =>
    if mapContains data.services serviceId then
      (.ok (), { st1 with
        adapterById := mapModify st1.adapterById adapterId
          (fun d => { d with services := mapErase d.services serviceId }) })
    else (.error (.noSuchService serviceId), st1)

/-- The service loop of `AdapterManagerState::add_adapter` (backend.rs:301-315):
add each initial service, remembering the ids added so far; on the first failure,
roll everything back through `remove_service` and drop the adapter entry. -/
def addAdapterGo (adapterId : AdapterId) :
    List Service → List ServiceId → ManagerState → Except AdapterError Unit × ManagerState
  | [], _, st => (.ok (), st)
  | svc :: rest, added, st =>
    match addService st adapterId svc with
    | (.ok _, st') => addAdapterGo adapterId rest (added ++ [svc.id]) st'
    | (.error e, st') =>
      let st'' := added.foldl (fun s sid => (removeService s adapterId sid).2) st'
      (.error e, { st'' with adapterById := mapErase st''.adapterById adapterId })

/-- `AdapterManagerState::add_adapter` (backend.rs:293-317): insert the adapter if
its id is vacant, then add the initial services with rollback on failure. -/
def addAdapter (st : ManagerState) (adapterId : AdapterId) (services : List Service) :
    Except AdapterError Unit × ManagerState :=
  if mapContains st.adapterById adapterId then (.error (.duplicateAdapter adapterId), st)
  else
    addAdapterGo adapterId services []
      { st with adapterById := (adapterId, ⟨[]⟩) :: st.adapterById }

/-- `AdapterManagerState::remove_adapter` (backend.rs:326-337): remove the adapter
and cascade `aux_remove_service` over the services it owned, ignoring their
errors. -/
def removeAdapter (st : ManagerState) (id : AdapterId) :
    Except AdapterError Unit × ManagerState :=
  match mapFind? st.adapterById id with
  | none => (.error (.noSuchAdapter id), st)
  | some data =>
    let st1 := { st with adapterById := mapErase st.adapterById id }
    (.ok (), (mapKeys data.services).foldl (fun s sid => (auxRemoveService s sid).2) st1)

/-- The watcher scan of `aux_add_getter` (backend.rs:479-489): for every live
watcher with a selector matching the new getter, insert the watcher into the
getter's back-reference set and push the getter id into the watcher's coverage
set.  The iteration reads the registry entries and mutates them through the
shared `Rc`, so the fold threads the updated `WatchMap`. -/
def linkWatchers (gd0 : GetterData) (wm0 : WatchMap) : GetterData × WatchMap :=
  wm0.watchers.foldl
    (fun acc kw =>
      if kw.2.selectors.any (fun sel => sel.matchesChan acc.1.getter) then
        let push := fun (w : WatcherData) =>
          { w with getters := setInsert w.getters acc.1.getter.id }
        ({ acc.1 with watchers := setInsert acc.1.watchers kw.2.key },
         { acc.2 with watchers := mapModify acc.2.watchers kw.1 push })
      else acc)
    (gd0, wm0)

/-- `AdapterManagerState::aux_add_getter` (backend.rs:469-496): adapter-agreement
check, watcher linking, then the transactional insertion into the getter index.
The source marks the downstream-watch registration as missing
(`// FIXME: register_single_channel_watch_values`), so no adapter call is made
and no guard is appended here.  The watcher-coverage mutations happen through
`Rc` before the insertion is attempted, so they survive a `DuplicateGetter`
failure: the updated `WatchMap` is returned alongside the error. -/
def auxAddGetter (gd0 : GetterData) (service : Service)
    (getterById : Map GetterId GetterData) (wm : WatchMap) :
    Except AdapterError (Map GetterId GetterData) × WatchMap :=
  if service.adapter ≠ gd0.getter.adapter then
    (.error (.conflictingAdapter service.adapter gd0.getter.adapter), wm)
  else
    let lw := linkWatchers gd0 wm
    match insertInMap getterById [(lw.1.getter.id, lw.1)] with
    | .error k => (.error (.duplicateGetter k), lw.2)
    | .ok m => (.ok m, lw.2)

/-- `AdapterManagerState::add_getter` (backend.rs:448-467): look up the parent
service, transactionally insert the channel into the service's child table and —
via `aux_add_getter` — into the global getter index, then commit both. -/
def addGetter (st : ManagerState) (getter : GetterChannel) :
    Except AdapterError Unit × ManagerState :=
  match mapFind? st.serviceById getter.service with
  | none => (.error (.noSuchService getter.service), st)
  | some service =>
    match insertInMap service.getters [(getter.id, getter)] with
    | .error k => (.error (.duplicateGetter k), st)
    | .ok getters' =>
      match auxAddGetter (GetterData.new getter) service st.getterById st.watchers with
      | (.error e, wm') => (.error e, { st with watchers := wm' })
      | (.ok getterById', wm') =>
        (.ok (), { st with
          serviceById := mapModify st.serviceById getter.service
            (fun s => { s with getters := getters' })
          getterById := getterById'
          watchers := wm' })

/-- `AdapterManagerState::remove_getter` (backend.rs:506-521): remove from the
global index first, then from the parent service's child table; the first removal
persists even when a later lookup fails.  Watcher coverage sets are not touched. -/
def removeGetter (st : ManagerState) (id : GetterId) :
    Except AdapterError Unit × ManagerState :=
  match mapFind? st.getterById id with
  | none => (.error (.noSuchGetter id), st)
  | some gd =>
    let st1 := { st with getterById := mapErase st.getterById id }
    match mapFind? st1.serviceById gd.getter.service with
    | none => (.error (.noSuchService gd.getter.service), st1)
    | some service =>
      if mapContains service.getters id then
        (.ok (), { st1 with
          serviceById := mapModify st1.serviceById gd.getter.service
            (fun s => { s with getters := mapErase s.getters id }) })
      else (.error (.noSuchGetter id), st1)

/-- `AdapterManagerState::add_setter` (backend.rs:536-556). -/
def addSetter (st : ManagerState) (setter : SetterChannel) :
    Except AdapterError Unit × ManagerState :=
  match mapFind? st.serviceById setter.service with
  | none => (.error (.noSuchService setter.service), st)
  | some service =>
    if service.adapter ≠ setter.adapter then
      (.error (.conflictingAdapter service.adapter setter.adapter), st)
    else
      match insertInMap service.setters [(setter.id, setter)] with
      | .error k => (.error (.duplicateSetter k), st)
      | .ok setters' =>
        match insertInMap st.setterById [(setter.id, SetterData.mk setter)] with
        | .error k => (.error (.duplicateSetter k), st)
        | .ok setterById' =>
          (.ok (), { st with
            serviceById := mapModify st.serviceById setter.service
              (fun s => { s with setters := setters' })
            setterById := setterById' })

/-- `AdapterManagerState::remove_setter` (backend.rs:566-581): same shape as
`remove_getter`. -/
def removeSetter (st : ManagerState) (id : SetterId) :
    Except AdapterError Unit × ManagerState :=
  match mapFind? st.setterById id with
  | none => (.error (.noSuchSetter id), st)
  | some sd =>
    let st1 := { st with setterById := mapErase st.setterById id }
    match mapFind? st1.serviceById sd.setter.service with
    | none => (.error (.noSuchService sd.setter.service), st1)
    | some service =>
      if mapContains service.setters id then
        (.ok (), { st1 with
          serviceById := mapModify st1.serviceById sd.setter.service
            (fun s => { s with setters := mapErase s.setters id }) })
      else (.error (.noSuchSetter id), st1)

/-- `Tagged::insert_tags` (backend.rs:56-59): insert each tag into the set. -/
def insertTags (tags : List Tag) (cur : List Tag) : List Tag :=
  tags.foldl setInsert cur

/-- `Tagged::remove_tags` (backend.rs:61-65): remove each tag from the set. -/
def removeTagsList (tags : List Tag) (cur : List Tag) : List Tag :=
  tags.foldl (fun acc t => acc.filter (fun x => x ≠ t)) cur

/-- The select-and-mutate pass shared by `with_services` (backend.rs:583-592) and
`with_channels_mut` (backend.rs:657-670) as the tag operations use them: walk the
table, and for every entry matched by any selector apply the mutation and count
the entity (one increment per matched entity, regardless of the tags). -/
def tagFold {K V : Type} (matched : V → Bool) (f : V → V) (m : Map K V) :
    Nat × Map K V :=
  m.foldl
    (fun acc p =>
      if matched p.2 then (acc.1 + 1, acc.2 ++ [(p.1, f p.2)])
      else (acc.1, acc.2 ++ [p]))
    (0, [])

/-- `AdapterManagerState::add_service_tags` (backend.rs:604-614). -/
def addServiceTags (st : ManagerState) (selectors : List ServiceSelector) (tags : List Tag) :
    Nat × ManagerState :=
  let r := tagFold (fun s => selectors.any (fun sel => sel.matchesService s))
    (fun s => { s with tags := insertTags tags s.tags }) st.serviceById
  (r.1, { st with serviceById := r.2 })

/-- `AdapterManagerState::remove_service_tags` (backend.rs:616-626). -/
def removeServiceTags (st : ManagerState) (selectors : List ServiceSelector) (tags : List Tag) :
    Nat × ManagerState :=
  let r := tagFold (fun s => selectors.any (fun sel => sel.matchesService s))
    (fun s => { s with tags := removeTagsList tags s.tags }) st.serviceById
  (r.1, { st with serviceById := r.2 })

/-- `AdapterManagerState::add_channel_tags` (backend.rs:685-694) instantiated at
the getter index (dispatched from `AddGetterTags`, backend.rs:940). -/
def addGetterTags (st : ManagerState) (selectors : List GetterSelector) (tags : List Tag) :
    Nat × ManagerState :=
  let r := tagFold (fun (gd : GetterData) => selectors.any (fun sel => sel.matchesChan gd.getter))
    (fun gd => { gd with getter := { gd.getter with tags := insertTags tags gd.getter.tags } })
    st.getterById
  (r.1, { st with getterById := r.2 })

/-- `AdapterManagerState::add_channel_tags` at the setter index
(`AddSetterTags`, backend.rs:941). -/
def addSetterTags (st : ManagerState) (selectors : List SetterSelector) (tags : List Tag) :
    Nat × ManagerState :=
  let r := tagFold (fun (sd : SetterData) => selectors.any (fun sel => sel.matchesChan sd.setter))
    (fun sd => { sd with setter := { sd.setter with tags := insertTags tags sd.setter.tags } })
    st.setterById
  (r.1, { st with setterById := r.2 })

/-- `AdapterManagerState::remove_channel_tags` (backend.rs:696-705) at the getter
index (`RemoveGetterTags`, backend.rs:942). -/
def removeGetterTags (st : ManagerState) (selectors : List GetterSelector) (tags : List Tag) :
    Nat × ManagerState :=
  let r := tagFold (fun (gd : GetterData) => selectors.any (fun sel => sel.matchesChan gd.getter))
    (fun gd => { gd with getter := { gd.getter with tags := removeTagsList tags gd.getter.tags } })
    st.getterById
  (r.1, { st with getterById := r.2 })

/-- `AdapterManagerState::remove_channel_tags` at the setter index
(`RemoveSetterTags`, backend.rs:943). -/
def removeSetterTags (st : ManagerState) (selectors : List SetterSelector) (tags : List Tag) :
    Nat × ManagerState :=
  let r := tagFold (fun (sd : SetterData) => selectors.any (fun sel => sel.matchesChan sd.setter))
    (fun sd => { sd with setter := { sd.setter with tags := removeTagsList tags sd.setter.tags } })
    st.setterById
  (r.1, { st with setterById := r.2 })

/-- `AdapterManagerState::get_channels` (backend.rs:673-683): snapshot the
channels matched by any selector, in table order. -/
def getChannelsG {K V T : Type} (matched : V → Bool) (proj : V → T) (m : Map K V) : List T :=
  m.foldl (fun acc p => if matched p.2 then acc ++ [proj p.2] else acc) []

/-- `get_channels` at the getter index (dispatched from `GetGetters`,
backend.rs:938; exposed as `get_getter_channels` in manager.rs:263-268). -/
def getGetterChannels (st : ManagerState) (selectors : List GetterSelector) :
    List GetterChannel :=
  getChannelsG (fun (gd : GetterData) => selectors.any (fun sel => sel.matchesChan gd.getter))
    (fun gd => gd.getter) st.getterById

/-- `get_channels` at the setter index (dispatched from `GetSetters`,
backend.rs:939; exposed as `get_setter_channels` in manager.rs:269-274). -/
def getSetterChannels (st : ManagerState) (selectors : List SetterSelector) :
    List SetterChannel :=
  getChannelsG (fun (sd : SetterData) => selectors.any (fun sel => sel.matchesChan sd.setter))
    (fun sd => sd.setter) st.setterById

/-- `HashMap::entry(..).or_insert(vec![]).push(b)` as `fetch_channel_values` and
`send_channel_values` use it (backend.rs:724-732, 763-771): append to the bucket
of key `k`, creating the bucket on first use. -/
def bucketAdd {K B : Type} [DecidableEq K] (m : Map K (List B)) (k : K) (b : B) :
    Map K (List B) :=
  if mapContains m k then mapModify m k (fun l => l ++ [b]) else m ++ [(k, [b])]

/-- The bucket currently associated with a key. -/
def bucketGet {K B : Type} [DecidableEq K] (m : Map K (List B)) (k : K) : List B :=
  (mapFind? m k).getD []

/-- External adapter behaviour for `fetch_values` (the `Adapter` trait,
adapter.rs:138): per-adapter batched fetch. -/
abbrev FetchEnv := AdapterId → List GetterId → List (GetterId × Except AdapterError (Option Value))

/-- External adapter behaviour for `send_values` (adapter.rs:141). -/
abbrev SendEnv := AdapterId → List (SetterId × Value) → List (SetterId × Except AdapterError Unit)

/-- `Result::map_err`. -/
def mapErr {ε ε' α : Type} (f : ε → ε') : Except ε α → Except ε' α
  | .ok a => .ok a
  | .error e => .error (f e)

/-- The grouping phase of `AdapterManagerState::fetch_channel_values`
(backend.rs:722-733): matching getter ids grouped by owning adapter, in table
order. -/
def fetchPerAdapter (st : ManagerState) (selectors : List GetterSelector) :
    Map AdapterId (List GetterId) :=
  st.getterById.foldl
    (fun acc p =>
      if selectors.any (fun sel => sel.matchesChan p.2.getter) then
        bucketAdd acc p.2.getter.adapter p.2.getter.id
      else acc)
    []

/-- `AdapterManagerState::fetch_channel_values` (backend.rs:720-755): group the
matching getters by adapter, dispatch one batched `fetch_values` per adapter
(skipping adapters missing from the index), wrap adapter errors in
`APIError::AdapterError` and concatenate.  No comparison against the channel's
declared `ChannelKind` is performed. -/
def fetchChannelValues (env : FetchEnv) (st : ManagerState) (selectors : List GetterSelector) :
    List (GetterId × Except APIError (Option Value)) :=
  (fetchPerAdapter st selectors).foldl
    (fun results pa =>
      match mapFind? st.adapterById pa.1 with
      | none => results
      | some _ => results ++ (env pa.1 pa.2).map (fun r => (r.1, mapErr APIError.adapterError r.2)))
    []

/-- The grouping phase of `AdapterManagerState::send_channel_values`
(backend.rs:760-773): for each `(selectors, value)` entry in input order, push one
`(setter-id, value)` pair into the owning adapter's bucket for every matching
setter in the table. -/
def sendPayloads (st : ManagerState) (keyvalues : List (List SetterSelector × Value)) :
    Map AdapterId (List (SetterId × Value)) :=
  keyvalues.foldl
    (fun per kv =>
      st.setterById.foldl
        (fun per p =>
          if kv.1.any (fun sel => sel.matchesChan p.2.setter) then
            bucketAdd per p.2.setter.adapter (p.2.setter.id, kv.2)
          else per)
        per)
    []

/-- `AdapterManagerState::send_channel_values` (backend.rs:758-793): build the
per-adapter payloads, dispatch one batched `send_values` per adapter (skipping
adapters missing from the index), wrap errors and concatenate. -/
def sendChannelValues (env : SendEnv) (st : ManagerState)
    (keyvalues : List (List SetterSelector × Value)) :
    List (SetterId × Except APIError Unit) :=
  (sendPayloads st keyvalues).foldl
    (fun results pa =>
      match mapFind? st.adapterById pa.1 with
      | none => results
      | some _ => results ++ (env pa.1 pa.2).map (fun r => (r.1, mapErr APIError.adapterError r.2)))
    []

/-- `foxbox_taxonomy::api::WatchEvent` as backend.rs constructs it:
`Value { from, value }` (backend.rs:853-856) and
`InitializationError { channel, error }` (backend.rs:862-865). -/
inductive WatchEvent
  | value (fromId : GetterId) (val : Value)
  | initializationError (channel : GetterId) (error : AdapterError)
deriving DecidableEq, Repr

/-- The `Execute` instructions relevant to the watch life cycle, as sent over the
`tx` channel (backend.rs:962-1059). -/
inductive ExecuteMsg
  | triggerWatchMsg (key : Nat) (event : WatchEvent)
  | unregisterChannelWatchMsg (key : Nat)
deriving DecidableEq, Repr

/-- `WatchGuard` (backend.rs:206-226): the cancellation key and the value of the
shared `is_dropped` flag (`Arc<AtomicBool>`). -/
structure WatchGuard where
  key : Nat
  isDropped : Bool
deriving DecidableEq, Repr

/-- `impl Drop for WatchGuard` (backend.rs:227-231): the only effect is sending
`Op::Execute(Execute::UnregisterChannelWatch(key))`; the shared `is_dropped` flag
is not written (no store of `true` exists anywhere in backend.rs), which is why
the guard is returned with its flag unchanged. -/
def watchGuardDrop (g : WatchGuard) : WatchGuard × List ExecuteMsg :=
  (g, [ExecuteMsg.unregisterChannelWatchMsg g.key])

/-- External adapter behaviour for the single-channel `register_watch` call made
by backend.rs:847: the returned `Box<AdapterWatchGuard>` is identified by the
channel it watches. -/
abbrev WatchEnv := AdapterId → GetterId → Option Range → Except AdapterError GetterId

/-- The per-value callback installed by `register_single_channel_watch_values`
(backend.rs:847-858): consult `is_dropped`; unless set, send a `TriggerWatch`
instruction carrying `WatchEvent::Value` for this channel. -/
def adapterWatchCallback (isDropped : Bool) (key : Nat) (id : GetterId) (v : Value) :
    Option ExecuteMsg :=
  if isDropped then none
  else some (.triggerWatchMsg key (.value id v))

/-- `AdapterManagerState::register_single_channel_watch_values`
(backend.rs:840-870): ask the adapter to watch the channel; a failure becomes a
synthetic `InitializationError` instruction, a success appends the returned guard
to the watcher record. -/
def registerSingleChannelWatchValues (env : WatchEnv) (channelId : GetterId)
    (range : Option Range) (key : Nat) (adapter : AdapterId) (wm : WatchMap) :
    WatchMap × List ExecuteMsg :=
  match env adapter channelId range with
  | .error e => (wm, [.triggerWatchMsg key (.initializationError channelId e)])
  | .ok guard =>
    let push := fun (w : WatcherData) => { w with guards := w.guards ++ [guard] }
    ({ wm with watchers := mapModify wm.watchers key push }, [])

/-- `AdapterManagerState::register_channel_watch` (backend.rs:795-838): create
the watcher record, link every currently matching getter symmetrically, then —
unless the filter is topology-only — register one downstream watch per matching
channel (skipping channels whose adapter is missing from the index) and return
the `WatchGuard`. -/
def registerChannelWatch (env : WatchEnv) (st : ManagerState)
    (selectors : List GetterSelector) (range : Exactly Range) :
    ManagerState × WatchGuard × List ExecuteMsg :=
  let key := st.watchers.counter
  let w : WatcherData :=
    { selectors := selectors, range := range, key := key,
      guards := [], getters := [], isDropped := false }
  let wm0 : WatchMap := { counter := key + 1, watchers := st.watchers.watchers ++ [(key, w)] }
  let scan := st.getterById.foldl
    (fun (acc : Map GetterId GetterData × WatchMap × List (GetterId × AdapterId)) p =>
      if selectors.any (fun sel => sel.matchesChan p.2.getter) then
        let push := fun (wd : WatcherData) =>
          { wd with getters := setInsert wd.getters p.2.getter.id }
        (acc.1 ++ [(p.1, { p.2 with watchers := setInsert p.2.watchers key })],
         { acc.2.1 with watchers := mapModify acc.2.1.watchers key push },
         acc.2.2 ++ [(p.2.getter.id, p.2.getter.adapter)])
      else (acc.1 ++ [p], acc.2.1, acc.2.2))
    ([], wm0, [])
  let step := fun (acc : WatchMap × List ExecuteMsg) (ch : GetterId × AdapterId) =>
    match mapFind? st.adapterById ch.2 with
    | none => acc
    | some _ =>
      match range with
      | .exactly r =>
        let rr := registerSingleChannelWatchValues env ch.1 (some r) key ch.2 acc.1
        (rr.1, acc.2 ++ rr.2)
      | .always =>
        let rr := registerSingleChannelWatchValues env ch.1 none key ch.2 acc.1
        (rr.1, acc.2 ++ rr.2)
      | .never => acc
  let fin := scan.2.2.foldl step (scan.2.1, [])
  ({ st with getterById := scan.1, watchers := fin.1 },
   { key := key, isDropped := false }, fin.2)

/-- `AdapterManagerState::trigger_watch` (backend.rs:872-881): look the watcher up
by key; deliver nothing if it is gone or its `is_dropped` flag is set, otherwise
invoke `on_event` — modelled as returning the event handed to the sink. -/
def triggerWatch (st : ManagerState) (key : Nat) (event : WatchEvent) : Option WatchEvent :=
  match mapFind? st.watchers.watchers key with
  | none => none
  | some wd => if wd.isDropped then none else some event

/-- The detach loop of `unregister_channel_watch` (backend.rs:897-906): walk the
coverage set; when a covered getter is missing from the index the source does an
early `return` (leaving the remaining getters un-detached), otherwise the watcher
is removed from the getter's back-reference set. -/
def detachFromGetters (key : Nat) : List GetterId → ManagerState → ManagerState
  | [], st => st
  | g :: rest, st =>
    match mapFind? st.getterById g with
    | none => st
    | some _ =>
      let detach := fun (gd : GetterData) =>
        { gd with watchers := gd.watchers.filter (fun k => k ≠ key) }
      detachFromGetters key rest
        { st with getterById := mapModify st.getterById g detach }

/-- `AdapterManagerState::unregister_channel_watch` (backend.rs:886-915): remove
the record from the registry (preventing future re-linking), then detach the
watcher from the getters it covered. -/
def unregisterChannelWatch (st : ManagerState) (key : Nat) : ManagerState :=
  match mapFind? st.watchers.watchers key with
  | none => st
  | some wd =>
    detachFromGetters key wd.getters
      { st with watchers := { st.watchers with watchers := mapErase st.watchers.watchers key } }

/-- `AdapterManager::remove_setter` (manager.rs:198-203): despite its name and its
documentation, the façade dispatches `Execute::RemoveGetter { id }`, which the
back-end thread executes as `remove_getter` (backend.rs:929). -/
def managerRemoveSetter (st : ManagerState) (id : String) :
    Except AdapterError Unit × ManagerState :=
  removeGetter st id

/-- Spec §3 I3 / §8 P3: every getter id in a live watcher's coverage set is
present in the getter index, and that getter's back-reference set contains the
watcher (the symmetric watcher link). -/
def watcherLinkInv (st : ManagerState) : Bool :=
  st.watchers.watchers.all (fun kw => kw.2.getters.all (fun g =>
    match mapFind? st.getterById g with
    | none => false
    | some gd => gd.watchers.contains kw.2.key))

/-- Disjunctive matching of a setter entry by a selector list (backend.rs:762). -/
def entryMatchesSetter (sels : List SetterSelector) (sd : SetterData) : Bool :=
  sels.any (fun sel => sel.matchesChan sd.setter)

/-- The pairs of an adapter's send batch that target one setter id. -/
def payloadFor (per : Map AdapterId (List (SetterId × Value))) (a : AdapterId) (s : SetterId) :
    List (SetterId × Value) :=
  (bucketGet per a).filter (fun pr => pr.1 = s)

/-- An empty service on adapter `a1`, registered in the concrete stores below. -/
def svc1 : Service := { id := "s1", adapter := "a1", tags := [], getters := [], setters := [] }

/-- Store with adapter `a1` owning service `s1` (both tables agree). -/
def stC1 : ManagerState :=
  { adapterById := [("a1", ⟨[("s1", ())]⟩)], serviceById := [("s1", svc1)],
    getterById := [], setterById := [], watchers := ⟨0, []⟩ }

/-- A setter whose parent service is not registered (used to make `add_setter`
fail). -/
def setterOrphan : SetterChannel :=
  { id := "cX", service := "nope", adapter := "a1", tags := [], kind := .onOff }

/-- A getter belonging to service `s2` on adapter `a1`. -/
def gchanC2 : GetterChannel :=
  { id := "g1", service := "s2", adapter := "a1", tags := [], kind := .onOff }

/-- A service submitted with a pre-populated getter map (the shape spec scenario 3
declares invalid). -/
def svcC2 : Service :=
  { id := "s2", adapter := "a1", tags := [], getters := [("g1", gchanC2)], setters := [] }

/-- Store with only the empty adapter `a1`. -/
def stC2 : ManagerState :=
  { adapterById := [("a1", ⟨[]⟩)], serviceById := [], getterById := [], setterById := [],
    watchers := ⟨0, []⟩ }

/-- A getter on service `s1` / adapter `a1`. -/
def gchanC3 : GetterChannel :=
  { id := "g1", service := "s1", adapter := "a1", tags := [], kind := .onOff }

/-- A live watcher covering getter `g1` (as produced by registering a match-all
topology watch and then adding `g1`). -/
def watcherC3 : WatcherData :=
  { selectors := [{}], range := .never, key := 0, guards := [], getters := ["g1"],
    isDropped := false }

/-- Store where watcher 0 and getter `g1` are symmetrically linked. -/
def stC3 : ManagerState :=
  { adapterById := [("a1", ⟨[("s1", ())]⟩)],
    serviceById :=
      [("s1", { id := "s1", adapter := "a1", tags := [], getters := [("g1", gchanC3)],
                setters := [] })],
    getterById := [("g1", { getter := gchanC3, watchers := [0] })],
    setterById := [], watchers := ⟨1, [(0, watcherC3)]⟩ }

/-- Store holding one live watcher (key 0) with no coverage. -/
def stC4 : ManagerState :=
  { adapterById := [], serviceById := [], getterById := [], setterById := [],
    watchers := ⟨1, [(0, { selectors := [{}], range := .always, key := 0, guards := [],
                           getters := [], isDropped := false })]⟩ }

/-- The guard returned for watcher 0 (its shared flag still unset). -/
def guardC4 : WatchGuard := { key := 0, isDropped := false }

/-- A getter matching the registered watcher of `stC5`. -/
def gchanC5 : GetterChannel :=
  { id := "g1", service := "s1", adapter := "a1", tags := [], kind := .onOff }

/-- Store with one registered watcher carrying a value filter (`Exactly` range)
and a match-all selector, and an empty service ready to receive a getter. -/
def stC5 : ManagerState :=
  { adapterById := [("a1", ⟨[("s1", ())]⟩)],
    serviceById := [("s1", { id := "s1", adapter := "a1", tags := [], getters := [],
                             setters := [] })],
    getterById := [], setterById := [],
    watchers := ⟨1, [(0, { selectors := [{}], range := .exactly ⟨1, 5⟩, key := 0,
                           guards := [], getters := [], isDropped := false })]⟩ }

/-- Getter `g` of declared kind `OnOff` (spec scenario 5). -/
def gC6 : GetterChannel := { id := "g", service := "s1", adapter := "a1", tags := [], kind := .onOff }

/-- A second getter, also `OnOff`. -/
def g2C6 : GetterChannel := { id := "g2", service := "s1", adapter := "a1", tags := [], kind := .onOff }

/-- Store registering both getters under adapter `a1`. -/
def stC6 : ManagerState :=
  { adapterById := [("a1", ⟨[("s1", ())]⟩)],
    serviceById := [("s1", { id := "s1", adapter := "a1", tags := [],
                             getters := [("g", gC6), ("g2", g2C6)], setters := [] })],
    getterById := [("g", ⟨gC6, []⟩), ("g2", ⟨g2C6, []⟩)], setterById := [],
    watchers := ⟨0, []⟩ }

/-- Adapter behaviour for the `stC6` scenario: return an `OpenClosed` value for
`g` (whose declared kind is `OnOff`) and an `OnOff` value for every other
channel. -/
def envC6 : FetchEnv := fun _ ids => ids.map (fun i =>
  if i = "g" then (i, .ok (some (.openClosed true))) else (i, .ok (some (.onOff true))))

/-- A setter registered on service `s1`. -/
def setterC7 : SetterChannel :=
  { id := "c1", service := "s1", adapter := "a1", tags := [], kind := .onOff }

/-- Store with setter `c1` present in both the global setter index and its parent
service's setter table. -/
def stC7 : ManagerState :=
  { adapterById := [("a1", ⟨[("s1", ())]⟩)],
    serviceById := [("s1", { id := "s1", adapter := "a1", tags := [], getters := [],
                             setters := [("c1", setterC7)] })],
    getterById := [], setterById := [("c1", ⟨setterC7⟩)], watchers := ⟨0, []⟩ }

/-- Store with a registered match-all topology watcher (empty coverage) plus an
empty service, for the add/remove round trip. -/
def stC9 : ManagerState :=
  { adapterById := [("a1", ⟨[("s1", ())]⟩)],
    serviceById := [("s1", { id := "s1", adapter := "a1", tags := [], getters := [],
                             setters := [] })],
    getterById := [], setterById := [],
    watchers := ⟨1, [(0, { selectors := [{}], range := .never, key := 0, guards := [],
                           getters := [], isDropped := false })]⟩ }

/-- The getter added and removed in the `stC9` round trip. -/
def gC9 : GetterChannel := { id := "g1", service := "s1", adapter := "a1", tags := [], kind := .onOff }

/-- Watcher-free store with adapter `a1` owning the empty service `s1`, used to
instantiate the round-trip theorem. -/
def stC9w : ManagerState :=
  { adapterById := [("a1", ⟨[("s1", ())]⟩)], serviceById := [("s1", svc1)],
    getterById := [], setterById := [], watchers := ⟨0, []⟩ }

/-- A fresh service (with one getter of its own) for the service round trip. -/
def svcC9w : Service :=
  { id := "s9", adapter := "a1", tags := [],
    getters := [("g9", { id := "g9", service := "s9", adapter := "a1", tags := [],
                         kind := .onOff })],
    setters := [] }

/-- A fresh getter on `s1` for the getter round trip. -/
def getterC9w : GetterChannel :=
  { id := "g1", service := "s1", adapter := "a1", tags := [], kind := .onOff }

/-- A fresh setter on `s1` for the setter round trip. -/
def setterC9w : SetterChannel :=
  { id := "c1", service := "s1", adapter := "a1", tags := [], kind := .onOff }

/-- Two setters on distinct adapters, the first tagged `x`. -/
def setterC10a : SetterChannel :=
  { id := "sA", service := "s1", adapter := "a1", tags := ["x"], kind := .onOff }

/-- Second setter (adapter `a2`, untagged). -/
def setterC10b : SetterChannel :=
  { id := "sB", service := "s2", adapter := "a2", tags := [], kind := .onOff }

/-- Store with both setters registered, used to instantiate the send-batch
theorem. -/
def stC10 : ManagerState :=
  { adapterById := [("a1", ⟨[("s1", ())]⟩), ("a2", ⟨[("s2", ())]⟩)],
    serviceById :=
      [("s1", { id := "s1", adapter := "a1", tags := [], getters := [],
                setters := [("sA", setterC10a)] }),
       ("s2", { id := "s2", adapter := "a2", tags := [], getters := [],
                setters := [("sB", setterC10b)] })],
    getterById := [],
    setterById := [("sA", ⟨setterC10a⟩), ("sB", ⟨setterC10b⟩)],
    watchers := ⟨0, []⟩ }

/-- Three send entries: match-all with `On`, tag-`x` with `Off`, match-all with
`On` again — `sA` matches all three, `sB` only the first and third. -/
def kvsC10 : List (List SetterSelector × Value) :=
  [([{}], .onOff true), ([{ tags := ["x"] }], .onOff false), ([{}], .onOff true)]

/-- The getter-index pairs a service contributes in `add_service`
(backend.rs:354-360). -/
def gpairsOf (s : Service) : Map GetterId GetterData :=
  s.getters.map (fun p => (p.1, GetterData.new p.2))

/-- The setter-index pairs a service contributes in `add_service`
(backend.rs:370-376). -/
def spairsOf (s : Service) : Map SetterId SetterData :=
  s.setters.map (fun p => (p.1, SetterData.mk p.2))

/-- The store reached from `st` once `add_adapter` has inserted the fresh
adapter `aid` and then successfully added the services of `L` in order
(backend.rs:293-315): each table carries the stacked contributions of `L` on top
of the original contents, and the adapter's back-reference table lists the added
service ids.  Used to verify that the rollback of backend.rs:306-313 restores
`st` exactly. -/
def stackServices (st : ManagerState) (aid : AdapterId) (L : List Service) : ManagerState :=
  { st with
    adapterById := (aid, ⟨(L.map (fun s => (s.id, ()))).reverse⟩) :: st.adapterById
    serviceById := (L.map (fun s => (s.id, s))).reverse ++ st.serviceById
    getterById := (L.map gpairsOf).flatten.reverse ++ st.getterById
    setterById := (L.map spairsOf).flatten.reverse ++ st.setterById }

/-- The key-uniqueness facts that hold of a batch of services successfully added
on top of `st`: service ids and channel ids are pairwise distinct (within and
across the services — the `HashMap` key invariant plus the vacancy checks of the
inserts) and fresh with respect to the corresponding tables of `st`. -/
def servicesWellFormed (st : ManagerState) (L : List Service) : Prop :=
  (L.map (fun s => s.id)).Nodup ∧
  (∀ s ∈ L, s.id ∉ mapKeys st.serviceById) ∧
  ((L.map (fun s => mapKeys s.getters)).flatten).Nodup ∧
  (∀ k ∈ (L.map (fun s => mapKeys s.getters)).flatten, k ∉ mapKeys st.getterById) ∧
  ((L.map (fun s => mapKeys s.setters)).flatten).Nodup ∧
  (∀ k ∈ (L.map (fun s => mapKeys s.setters)).flatten, k ∉ mapKeys st.setterById)

/-- A service owned by adapter `aX` carrying one getter, used to exercise the
rollback path of `add_adapter` in the C1 witness. -/
def svcRb : Service :=
  { id := "sR", adapter := "aX", tags := [],
    getters := [("gR", { id := "gR", service := "sR", adapter := "aX", tags := [],
                         kind := .onOff })],
    setters := [] }


theorem mapFind?_eq_none_iff {K V : Type} [DecidableEq K] (m : Map K V) (k : K) :
    mapFind? m k = none ↔ k ∉ mapKeys m := by
  induction m with
  | nil => simp [mapFind?, mapKeys]
  | cons p rest ih =>
    obtain ⟨pk, pv⟩ := p
    by_cases h : pk = k
    · subst h
      simp [mapFind?, mapKeys]
    · have h' : ¬(k = pk) := fun hk => h hk.symm
      simp [mapFind?, mapKeys, h, h', ih]

theorem mapContains_false_iff {K V : Type} [DecidableEq K] (m : Map K V) (k : K) :
    mapContains m k = false ↔ k ∉ mapKeys m := by
  rw [← mapFind?_eq_none_iff]
  unfold mapContains
  cases mapFind? m k <;> simp

theorem mapErase_cons_self {K V : Type} [DecidableEq K] (k : K) (v : V) (m : Map K V) :
    mapErase ((k, v) :: m) k = m := by
  simp [mapErase]

theorem mapErase_append_left {K V : Type} [DecidableEq K] (l1 l2 : Map K V) (k : K)
    (h : k ∉ mapKeys l1) : mapErase (l1 ++ l2) k = l1 ++ mapErase l2 k := by
  induction l1 with
  | nil => simp
  | cons p rest ih =>
    obtain ⟨pk, pv⟩ := p
    simp only [mapKeys, List.map_cons, List.mem_cons] at h
    push_neg at h
    have h1 : pk ≠ k := Ne.symm h.1
    simp only [List.cons_append, mapErase, if_neg h1]
    exact congrArg (List.cons (pk, pv)) (ih (by simpa [mapKeys] using h.2))

theorem insertAll_eq_reverse_append {K V : Type} (pairs m : Map K V) :
    pairs.foldl (fun acc p => p :: acc) m = pairs.reverse ++ m := by
  induction pairs generalizing m with
  | nil => simp
  | cons p rest ih => simp [List.foldl_cons, ih, List.reverse_cons]

theorem eraseFold_restore {K V : Type} [DecidableEq K] (pairs m : Map K V)
    (hfresh : ∀ p ∈ pairs, p.1 ∉ mapKeys m) (hnd : (pairs.map (·.1)).Nodup) :
    (pairs.map (·.1)).foldl mapErase (pairs.reverse ++ m) = m := by
  induction pairs generalizing m with
  | nil => rfl
  | cons p rest ih =>
    obtain ⟨pk, pv⟩ := p
    simp only [List.map_cons, List.foldl_cons, List.reverse_cons, List.append_assoc,
      List.singleton_append]
    have hnotrev : pk ∉ mapKeys rest.reverse := by
      simp only [List.map_cons, List.nodup_cons, List.mem_map] at hnd
      simp only [mapKeys, List.map_reverse, List.mem_reverse, List.mem_map]
      exact fun ⟨q, hq, hqe⟩ => hnd.1 ⟨q, hq, hqe⟩
    rw [mapErase_append_left rest.reverse ((pk, pv) :: m) pk hnotrev, mapErase_cons_self]
    exact ih m (fun q hq => hfresh q (List.mem_cons_of_mem _ hq)) (List.Nodup.of_cons hnd)

theorem mapFind?_modify_self {K V : Type} [DecidableEq K] (m : Map K V) (k : K) (f : V → V) :
    mapFind? (mapModify m k f) k = (mapFind? m k).map f := by
  induction m with
  | nil => rfl
  | cons p rest ih =>
    obtain ⟨pk, pv⟩ := p
    by_cases h : pk = k
    · subst h
      simp [mapModify, mapFind?]
    · simp [mapModify, mapFind?, h, ih]

theorem mapFind?_modify_ne {K V : Type} [DecidableEq K] (m : Map K V) (k k' : K) (f : V → V)
    (h : k ≠ k') : mapFind? (mapModify m k f) k' = mapFind? m k' := by
  induction m with
  | nil => rfl
  | cons p rest ih =>
    obtain ⟨pk, pv⟩ := p
    by_cases hp : pk = k
    · subst hp
      simp [mapModify, mapFind?, h, ih]
    · simp [mapModify, mapFind?, hp, ih]

theorem mapModify_modify {K V : Type} [DecidableEq K] (m : Map K V) (k : K) (f g : V → V) :
    mapModify (mapModify m k f) k g = mapModify m k (fun v => g (f v)) := by
  induction m with
  | nil => rfl
  | cons p rest ih =>
    obtain ⟨pk, pv⟩ := p
    by_cases h : pk = k
    · simp [mapModify, h]
    · simp [mapModify, h, ih]

theorem mapModify_eq_self {K V : Type} [DecidableEq K] (m : Map K V) (k : K) (g : V → V)
    (hg : ∀ v, mapFind? m k = some v → g v = v) : mapModify m k g = m := by
  induction m with
  | nil => rfl
  | cons p rest ih =>
    obtain ⟨pk, pv⟩ := p
    by_cases h : pk = k
    · subst h
      have := hg pv (by simp [mapFind?])
      simp [mapModify, this]
    · simp only [mapModify, if_neg h, List.cons.injEq, true_and]
      exact ih (fun v hv => hg v (by simpa [mapFind?, h] using hv))

theorem mapFind?_append_of_none {K V : Type} [DecidableEq K] (l1 l2 : Map K V) (k : K)
    (h : mapFind? l1 k = none) : mapFind? (l1 ++ l2) k = mapFind? l2 k := by
  induction l1 with
  | nil => rfl
  | cons p rest ih =>
    obtain ⟨pk, pv⟩ := p
    by_cases hp : pk = k
    · simp [mapFind?, hp] at h
    · simp only [mapFind?, hp, if_false, List.cons_append] at h ⊢
      exact ih h

theorem mapFind?_append_of_some {K V : Type} [DecidableEq K] (l1 l2 : Map K V) (k : K) (v : V)
    (h : mapFind? l1 k = some v) : mapFind? (l1 ++ l2) k = some v := by
  induction l1 with
  | nil => cases h
  | cons p rest ih =>
    obtain ⟨pk, pv⟩ := p
    by_cases hp : pk = k
    · simp only [mapFind?, hp, if_true, if_pos] at h ⊢
      exact h
    · simp only [mapFind?, hp, if_false, List.cons_append] at h ⊢
      exact ih h

theorem insertInMap_of_fresh {K V : Type} [DecidableEq K] (m : Map K V) (pairs : List (K × V))
    (h : ∀ p ∈ pairs, p.1 ∉ mapKeys m) :
    insertInMap m pairs = .ok (pairs.reverse ++ m) := by
  unfold insertInMap
  rw [List.find?_eq_none.mpr (fun p hp => by simp [(mapContains_false_iff m p.1).mpr (h p hp)])]
  rw [insertAll_eq_reverse_append]

theorem insertInMap_singleton_of_fresh {K V : Type} [DecidableEq K] (m : Map K V) (k : K) (v : V)
    (h : k ∉ mapKeys m) :
    insertInMap m [(k, v)] = .ok ((k, v) :: m) := by
  have := insertInMap_of_fresh m [(k, v)] (by simpa using h)
  simpa using this

theorem addService_error_unchanged (st : ManagerState) (a : AdapterId) (svc : Service)
    (e : AdapterError) (st' : ManagerState) (h : addService st a svc = (.error e, st')) :
    st' = st := by
  unfold addService at h
  repeat' split at h
  all_goals simp_all

theorem addSetter_error_unchanged (st : ManagerState) (c : SetterChannel) (e : AdapterError)
    (st' : ManagerState) (h : addSetter st c = (.error e, st')) : st' = st := by
  unfold addSetter at h
  repeat' split at h
  all_goals simp_all

theorem removeAdapter_error_unchanged (st : ManagerState) (a : AdapterId) (e : AdapterError)
    (st' : ManagerState) (h : removeAdapter st a = (.error e, st')) : st' = st := by
  unfold removeAdapter at h
  repeat' split at h
  all_goals simp_all

theorem adapter_roundtrip_restores (st : ManagerState) (aid : AdapterId)
    (h : mapContains st.adapterById aid = false) :
    addAdapter st aid [] = (.ok (), { st with adapterById := (aid, ⟨[]⟩) :: st.adapterById }) ∧
    removeAdapter { st with adapterById := (aid, ⟨[]⟩) :: st.adapterById } aid = (.ok (), st) ∧
    (removeAdapter st aid).1 = .error (.noSuchAdapter aid) := by
  have hfind : mapFind? st.adapterById aid = none :=
    (mapFind?_eq_none_iff _ _).mpr ((mapContains_false_iff _ _).mp h)
  have hfhead : mapFind? ((aid, (⟨[]⟩ : AdapterData)) :: st.adapterById) aid =
      some (⟨[]⟩ : AdapterData) := by simp [mapFind?]
  refine ⟨?_, ?_, ?_⟩
  · simp only [addAdapter, h, Bool.false_eq_true, if_false, addAdapterGo]
  · simp only [removeAdapter, hfhead, mapErase_cons_self, mapKeys, List.map_nil, List.foldl_nil]
  · simp only [removeAdapter, hfind]

theorem service_roundtrip_restores (st : ManagerState) (a : AdapterId) (svc : Service)
    (data : AdapterData)
    (hd : mapFind? st.adapterById a = some data)
    (hsid1 : svc.id ∉ mapKeys st.serviceById)
    (hsid2 : svc.id ∉ mapKeys data.services)
    (hg : ∀ p ∈ svc.getters, p.1 ∉ mapKeys st.getterById ∧ p.2.adapter = a)
    (hs : ∀ p ∈ svc.setters, p.1 ∉ mapKeys st.setterById ∧ p.2.adapter = a)
    (hndg : (mapKeys svc.getters).Nodup) (hnds : (mapKeys svc.setters).Nodup) :
    (addService st a svc).1 = .ok () ∧
    removeService (addService st a svc).2 a svc.id = (.ok (), st) ∧
    (removeService st a svc.id).1 = .error (.noSuchService svc.id) := by
  have hfind1 : svc.getters.find? (fun p => p.2.adapter ≠ a) = none :=
    List.find?_eq_none.mpr (fun p hp => by simp [(hg p hp).2])
  have hfind2 : svc.setters.find? (fun p => p.2.adapter ≠ a) = none :=
    List.find?_eq_none.mpr (fun p hp => by simp [(hs p hp).2])
  have hins1 : insertInMap st.getterById (svc.getters.map (fun p => (p.1, GetterData.new p.2))) =
      .ok ((svc.getters.map (fun p => (p.1, GetterData.new p.2))).reverse ++ st.getterById) :=
    insertInMap_of_fresh _ _ (by
      intro q hq
      obtain ⟨p, hp, rfl⟩ := List.mem_map.mp hq
      exact (hg p hp).1)
  have hins2 : insertInMap st.setterById (svc.setters.map (fun p => (p.1, SetterData.mk p.2))) =
      .ok ((svc.setters.map (fun p => (p.1, SetterData.mk p.2))).reverse ++ st.setterById) :=
    insertInMap_of_fresh _ _ (by
      intro q hq
      obtain ⟨p, hp, rfl⟩ := List.mem_map.mp hq
      exact (hs p hp).1)
  have hins3 : insertInMap data.services [(svc.id, ())] = .ok ((svc.id, ()) :: data.services) :=
    insertInMap_singleton_of_fresh _ _ _ hsid2
  have hins4 : insertInMap st.serviceById [(svc.id, svc)] =
      .ok ((svc.id, svc) :: st.serviceById) :=
    insertInMap_singleton_of_fresh _ _ _ hsid1
  have hadd : addService st a svc = (.ok (), { st with
      getterById := (svc.getters.map (fun p => (p.1, GetterData.new p.2))).reverse ++ st.getterById
      setterById := (svc.setters.map (fun p => (p.1, SetterData.mk p.2))).reverse ++ st.setterById
      serviceById := (svc.id, svc) :: st.serviceById
      adapterById := mapModify st.adapterById a
        (fun d => { d with services := (svc.id, ()) :: data.services }) }) := by
    simp only [addService, hfind1, hins1, hfind2, hins2, hd, hins3, hins4]
  have hkeysg : (svc.getters.map (fun p => (p.1, GetterData.new p.2))).map (·.1) =
      mapKeys svc.getters := by simp [mapKeys]
  have hkeyss : (svc.setters.map (fun p => (p.1, SetterData.mk p.2))).map (·.1) =
      mapKeys svc.setters := by simp [mapKeys]
  have heraseg : (mapKeys svc.getters).foldl mapErase
      ((svc.getters.map (fun p => (p.1, GetterData.new p.2))).reverse ++ st.getterById) =
      st.getterById := by
    rw [← hkeysg]
    exact eraseFold_restore _ _
      (by
        intro q hq
        obtain ⟨p, hp, rfl⟩ := List.mem_map.mp hq
        exact (hg p hp).1)
      (by rw [hkeysg]; exact hndg)
  have herases : (mapKeys svc.setters).foldl mapErase
      ((svc.setters.map (fun p => (p.1, SetterData.mk p.2))).reverse ++ st.setterById) =
      st.setterById := by
    rw [← hkeyss]
    exact eraseFold_restore _ _
      (by
        intro q hq
        obtain ⟨p, hp, rfl⟩ := List.mem_map.mp hq
        exact (hs p hp).1)
      (by rw [hkeyss]; exact hnds)
  have hfindmod : mapFind? (mapModify st.adapterById a
      (fun d => { d with services := (svc.id, ()) :: data.services })) a =
      some { data with services := (svc.id, ()) :: data.services } := by
    rw [mapFind?_modify_self, hd]
    rfl
  have hmodmod : mapModify (mapModify st.adapterById a
        (fun d => { d with services := (svc.id, ()) :: data.services })) a
        (fun d => { d with services := mapErase d.services svc.id }) =
      st.adapterById := by
    rw [mapModify_modify]
    exact mapModify_eq_self _ _ _ (fun v hv => by
      rw [hd] at hv
      cases hv
      simp [mapErase])
  have hfsvc : mapFind? ((svc.id, svc) :: st.serviceById) svc.id = some svc := by
    simp [mapFind?]
  have hcont : mapContains ((svc.id, ()) :: data.services) svc.id = true := by
    simp [mapContains, mapFind?]
  have hn1 : mapFind? st.serviceById svc.id = none :=
    (mapFind?_eq_none_iff _ _).mpr hsid1
  have hc2 : mapContains data.services svc.id = false :=
    (mapContains_false_iff _ _).mpr hsid2
  refine ⟨by rw [hadd], ?_, ?_⟩
  · rw [hadd]
    simp only [removeService, auxRemoveService, hfsvc, mapErase_cons_self, heraseg, herases,
      hfindmod, hcont, if_true, hmodmod]
  · simp only [removeService, auxRemoveService, hn1, hd, hc2, Bool.false_eq_true, if_false]

theorem foldl_fst_getter {β : Type} (f : (GetterData × WatchMap) → β → GetterData × WatchMap)
    (hf : ∀ acc b, ((f acc b).1).getter = acc.1.getter)
    (l : List β) (acc : GetterData × WatchMap) :
    ((l.foldl f acc).1).getter = acc.1.getter := by
  induction l generalizing acc with
  | nil => rfl
  | cons b rest ih => rw [List.foldl_cons, ih, hf]

theorem linkWatchers_fst_getter (gd : GetterData) (wm : WatchMap) :
    (linkWatchers gd wm).1.getter = gd.getter := by
  unfold linkWatchers
  exact foldl_fst_getter _ (fun acc kw => by dsimp only; split <;> rfl) _ _

theorem setter_roundtrip_restores (st : ManagerState) (c : SetterChannel) (svc : Service)
    (hfs : mapFind? st.serviceById c.service = some svc)
    (hadap : svc.adapter = c.adapter)
    (hf1 : c.id ∉ mapKeys svc.setters)
    (hf2 : c.id ∉ mapKeys st.setterById) :
    (addSetter st c).1 = .ok () ∧
    removeSetter (addSetter st c).2 c.id = (.ok (), st) ∧
    (removeSetter st c.id).1 = .error (.noSuchSetter c.id) := by
  have hins1 : insertInMap svc.setters [(c.id, c)] = .ok ((c.id, c) :: svc.setters) :=
    insertInMap_singleton_of_fresh _ _ _ hf1
  have hins2 : insertInMap st.setterById [(c.id, SetterData.mk c)] =
      .ok ((c.id, SetterData.mk c) :: st.setterById) :=
    insertInMap_singleton_of_fresh _ _ _ hf2
  have hadd : addSetter st c = (.ok (), { st with
      serviceById := mapModify st.serviceById c.service
        (fun s => { s with setters := (c.id, c) :: svc.setters })
      setterById := (c.id, SetterData.mk c) :: st.setterById }) := by
    simp only [addSetter, hfs, hadap, ne_eq, not_true_eq_false, if_false, hins1, hins2]
  have hfsd : mapFind? ((c.id, SetterData.mk c) :: st.setterById) c.id =
      some (SetterData.mk c) := by
    simp [mapFind?]
  have hfmod : mapFind? (mapModify st.serviceById c.service
      (fun s => { s with setters := (c.id, c) :: svc.setters })) c.service =
      some { svc with setters := (c.id, c) :: svc.setters } := by
    rw [mapFind?_modify_self, hfs]
    rfl
  have hcont : mapContains ((c.id, c) :: svc.setters) c.id = true := by
    simp [mapContains, mapFind?]
  have hmodmod : mapModify (mapModify st.serviceById c.service
        (fun s => { s with setters := (c.id, c) :: svc.setters })) c.service
        (fun s => { s with setters := mapErase s.setters c.id }) = st.serviceById := by
    rw [mapModify_modify]
    exact mapModify_eq_self _ _ _ (fun v hv => by
      rw [hfs] at hv
      cases hv
      simp [mapErase])
  have hnone : mapFind? st.setterById c.id = none :=
    (mapFind?_eq_none_iff _ _).mpr hf2
  refine ⟨by rw [hadd], ?_, by simp only [removeSetter, hnone]⟩
  rw [hadd]
  simp only [removeSetter, hfsd, mapErase_cons_self, hfmod, hcont, if_true, hmodmod]

theorem getter_roundtrip_restores (st : ManagerState) (g : GetterChannel) (svc : Service)
    (hfs : mapFind? st.serviceById g.service = some svc)
    (hadap : svc.adapter = g.adapter)
    (hf1 : g.id ∉ mapKeys svc.getters)
    (hf2 : g.id ∉ mapKeys st.getterById) :
    (addGetter st g).1 = .ok () ∧
    (removeGetter (addGetter st g).2 g.id).1 = .ok () ∧
    (removeGetter (addGetter st g).2 g.id).2.adapterById = st.adapterById ∧
    (removeGetter (addGetter st g).2 g.id).2.serviceById = st.serviceById ∧
    (removeGetter (addGetter st g).2 g.id).2.getterById = st.getterById ∧
    (removeGetter (addGetter st g).2 g.id).2.setterById = st.setterById ∧
    (removeGetter (addGetter st g).2 g.id).2.watchers = (addGetter st g).2.watchers ∧
    (removeGetter st g.id).1 = .error (.noSuchGetter g.id) := by
  have hins1 : insertInMap svc.getters [(g.id, g)] = .ok ((g.id, g) :: svc.getters) :=
    insertInMap_singleton_of_fresh _ _ _ hf1
  have hlw : (linkWatchers (GetterData.new g) st.watchers).1.getter = g := by
    rw [linkWatchers_fst_getter]
    rfl
  have hins2 : insertInMap st.getterById
      [((linkWatchers (GetterData.new g) st.watchers).1.getter.id,
        (linkWatchers (GetterData.new g) st.watchers).1)] =
      .ok (((g.id, (linkWatchers (GetterData.new g) st.watchers).1)) :: st.getterById) := by
    rw [hlw]
    exact insertInMap_singleton_of_fresh _ _ _ hf2
  have hadd : addGetter st g = (.ok (), { st with
      serviceById := mapModify st.serviceById g.service
        (fun s => { s with getters := (g.id, g) :: svc.getters })
      getterById := (g.id, (linkWatchers (GetterData.new g) st.watchers).1) :: st.getterById
      watchers := (linkWatchers (GetterData.new g) st.watchers).2 }) := by
    have hga : (GetterData.new g).getter.adapter = g.adapter := rfl
    simp only [addGetter, hfs, hins1, auxAddGetter, hadap, hga, ne_eq, not_true_eq_false,
      if_false, hins2]
  have hfgd : mapFind? ((g.id, (linkWatchers (GetterData.new g) st.watchers).1) :: st.getterById)
      g.id = some (linkWatchers (GetterData.new g) st.watchers).1 := by
    simp [mapFind?]
  have hfmod : mapFind? (mapModify st.serviceById g.service
      (fun s => { s with getters := (g.id, g) :: svc.getters })) g.service =
      some { svc with getters := (g.id, g) :: svc.getters } := by
    rw [mapFind?_modify_self, hfs]
    rfl
  have hcont : mapContains ((g.id, g) :: svc.getters) g.id = true := by
    simp [mapContains, mapFind?]
  have hmodmod : mapModify (mapModify st.serviceById g.service
        (fun s => { s with getters := (g.id, g) :: svc.getters })) g.service
        (fun s => { s with getters := mapErase s.getters g.id }) = st.serviceById := by
    rw [mapModify_modify]
    exact mapModify_eq_self _ _ _ (fun v hv => by
      rw [hfs] at hv
      cases hv
      simp [mapErase])
  have hnone : mapFind? st.getterById g.id = none :=
    (mapFind?_eq_none_iff _ _).mpr hf2
  have hrem : removeGetter (addGetter st g).2 g.id = (.ok (), { st with
      watchers := (linkWatchers (GetterData.new g) st.watchers).2 }) := by
    rw [hadd]
    simp only [removeGetter, hfgd, mapErase_cons_self, hlw, hfmod, hcont, if_true, hmodmod]
  refine ⟨by rw [hadd], ?_, ?_, ?_, ?_, ?_, ?_, by simp only [removeGetter, hnone]⟩
  all_goals rw [hrem]
  all_goals try rw [hadd]

theorem tagFold_count {K V : Type} (matched : V → Bool) (f : V → V) (m : Map K V) :
    (tagFold matched f m).1 = (m.filter (fun p => matched p.2)).length := by
  unfold tagFold
  suffices h : ∀ (l : Map K V) (n : Nat) (acc : Map K V),
      (l.foldl (fun acc p => if matched p.2 then (acc.1 + 1, acc.2 ++ [(p.1, f p.2)])
        else (acc.1, acc.2 ++ [p])) (n, acc)).1 = n + (l.filter (fun p => matched p.2)).length by
    simpa using h m 0 []
  intro l
  induction l with
  | nil => intro n acc; simp
  | cons p rest ih =>
    intro n acc
    by_cases h : matched p.2
    · simp only [List.foldl_cons, List.filter_cons, h, if_true, ih, List.length_cons]
      omega
    · simp only [List.foldl_cons, List.filter_cons, h, if_false, ih, Bool.false_eq_true]

theorem setInsert_mem {α : Type} [DecidableEq α] (s : List α) (a t : α) :
    t ∈ setInsert s a ↔ t ∈ s ∨ t = a := by
  unfold setInsert
  by_cases h : s.contains a
  · rw [if_pos h]
    constructor
    · exact Or.inl
    · intro hc
      cases hc with
      | inl h1 => exact h1
      | inr h1 => subst h1; exact List.elem_iff.mp h
  · rw [if_neg h]
    simp

theorem insertTags_mem (ts cur : List Tag) (t : Tag) :
    t ∈ insertTags ts cur ↔ t ∈ cur ∨ t ∈ ts := by
  induction ts generalizing cur with
  | nil => simp [insertTags]
  | cons a rest ih =>
    unfold insertTags at ih ⊢
    rw [List.foldl_cons, ih, setInsert_mem]
    simp only [List.mem_cons]
    tauto

theorem removeTagsList_mem (ts cur : List Tag) (t : Tag) :
    t ∈ removeTagsList ts cur ↔ t ∈ cur ∧ t ∉ ts := by
  induction ts generalizing cur with
  | nil => simp [removeTagsList]
  | cons a rest ih =>
    unfold removeTagsList at ih ⊢
    rw [List.foldl_cons, ih]
    simp only [List.mem_filter, List.mem_cons, decide_not]
    constructor
    · rintro ⟨⟨h1, h2⟩, h3⟩
      refine ⟨h1, ?_⟩
      simp only [Bool.not_eq_eq_eq_not, Bool.not_true, decide_eq_false_iff_not] at h2
      tauto
    · rintro ⟨h1, h2⟩
      push_neg at h2
      refine ⟨⟨h1, ?_⟩, h2.2⟩
      simp [h2.1]

theorem bucketGet_bucketAdd {K B : Type} [DecidableEq K] (m : Map K (List B)) (k k' : K) (b : B) :
    bucketGet (bucketAdd m k b) k' =
      if k = k' then bucketGet m k' ++ [b] else bucketGet m k' := by
  unfold bucketAdd bucketGet
  by_cases hc : mapContains m k
  · rw [if_pos hc]
    by_cases he : k = k'
    · subst he
      rw [if_pos rfl, mapFind?_modify_self]
      unfold mapContains at hc
      cases hfind : mapFind? m k with
      | none => rw [hfind] at hc; simp at hc
      | some l => rfl
    · rw [if_neg he, mapFind?_modify_ne m k k' _ he]
  · rw [if_neg (by simp [hc])]
    have hnone : mapFind? m k = none := by
      unfold mapContains at hc
      cases hfind : mapFind? m k with
      | none => rfl
      | some l => rw [hfind] at hc; simp at hc
    by_cases he : k = k'
    · subst he
      rw [if_pos rfl, mapFind?_append_of_none m [(k, [b])] k hnone]
      simp [mapFind?, bucketGet, hnone]
    · rw [if_neg he]
      cases hfind : mapFind? m k' with
      | none =>
        rw [mapFind?_append_of_none m [(k, [b])] k' hfind]
        simp [mapFind?, he]
      | some l =>
        rw [mapFind?_append_of_some m [(k, [b])] k' l hfind]

theorem payloadFor_bucketAdd (per : Map AdapterId (List (SetterId × Value)))
    (ad A : AdapterId) (pid s : SetterId) (v : Value) :
    payloadFor (bucketAdd per ad (pid, v)) A s =
      payloadFor per A s ++ (if ad = A ∧ pid = s then [(s, v)] else []) := by
  unfold payloadFor
  rw [bucketGet_bucketAdd]
  by_cases h1 : ad = A
  · rw [if_pos h1, List.filter_append]
    by_cases h2 : pid = s
    · subst h2
      simp [h1]
    · simp [h1, h2]
  · simp [h1]

theorem sendPayload_entry (l : Map SetterId SetterData)
    (per : Map AdapterId (List (SetterId × Value)))
    (sels : List SetterSelector) (v : Value) (A : AdapterId) (s : SetterId) :
    payloadFor (l.foldl (fun per p => if sels.any (fun sel => sel.matchesChan p.2.setter)
        then bucketAdd per p.2.setter.adapter (p.2.setter.id, v) else per) per) A s =
      payloadFor per A s ++
      (l.filter (fun p => sels.any (fun sel => sel.matchesChan p.2.setter) &&
          (p.2.setter.adapter = A) && (p.2.setter.id = s))).map (fun _ => (s, v)) := by
  induction l generalizing per with
  | nil => simp
  | cons p rest ih =>
    rw [List.foldl_cons, List.filter_cons]
    by_cases hm : sels.any (fun sel => sel.matchesChan p.2.setter)
    · rw [if_pos hm, ih, payloadFor_bucketAdd]
      by_cases hA : p.2.setter.adapter = A
      · by_cases hs : p.2.setter.id = s
        · simp [hm, hA, hs]
        · simp [hm, hA, hs]
      · simp [hm, hA]
    · rw [if_neg hm, ih]
      simp [hm]

theorem sendPayloads_char (st : ManagerState) (kvs : List (List SetterSelector × Value))
    (A : AdapterId) (s : SetterId) :
    payloadFor (sendPayloads st kvs) A s =
      (kvs.map (fun kv =>
        (st.setterById.filter (fun p => kv.1.any (fun sel => sel.matchesChan p.2.setter) &&
            (p.2.setter.adapter = A) && (p.2.setter.id = s))).map
          (fun _ => (s, kv.2)))).flatten := by
  unfold sendPayloads
  suffices h : ∀ (ks : List (List SetterSelector × Value))
      (per : Map AdapterId (List (SetterId × Value))),
      payloadFor (ks.foldl (fun per kv => st.setterById.foldl
          (fun per p => if kv.1.any (fun sel => sel.matchesChan p.2.setter)
            then bucketAdd per p.2.setter.adapter (p.2.setter.id, kv.2) else per) per) per) A s =
        payloadFor per A s ++
        (ks.map (fun kv =>
          (st.setterById.filter (fun p => kv.1.any (fun sel => sel.matchesChan p.2.setter) &&
              (p.2.setter.adapter = A) && (p.2.setter.id = s))).map
            (fun _ => (s, kv.2)))).flatten by
    have := h kvs []
    simpa [payloadFor, bucketGet, mapFind?] using this
  intro ks
  induction ks with
  | nil => intro per; simp
  | cons kv rest ih =>
    intro per
    rw [List.foldl_cons, ih, sendPayload_entry]
    simp [List.flatten]

theorem filter_unique_collapse {α : Type} (l : Map SetterId SetterData) (sd : SetterData)
    (s : SetterId)
    (h : (l.filter (fun p => p.2.setter.id = s)).map (fun p => p.2) = [sd])
    (F : SetterData → Bool) (x : α) :
    (l.filter (fun p => F p.2 && (p.2.setter.id = s))).map (fun _ => x) =
      if F sd then [x] else [] := by
  induction l with
  | nil => simp at h
  | cons p rest ih =>
    by_cases hid : p.2.setter.id = s
    · rw [List.filter_cons, if_pos (by simp [hid])] at h
      simp only [List.map_cons, List.cons.injEq] at h
      obtain ⟨h1, h2⟩ := h
      have hrest : ∀ q ∈ rest, ¬(decide (q.2.setter.id = s) = true) := by
        intro q hq
        have := List.map_eq_nil_iff.mp h2
        rw [List.filter_eq_nil_iff] at this
        exact this q hq
      have hsub : rest.filter (fun p => F p.2 && (p.2.setter.id = s)) = [] := by
        rw [List.filter_eq_nil_iff]
        intro q hq
        simp only [Bool.and_eq_true, not_and]
        intro _
        exact hrest q hq
      rw [List.filter_cons]
      by_cases hF : F p.2
      · rw [if_pos (by simp [hF, hid]), hsub]
        rw [← h1]
        simp [hF]
      · rw [if_neg (by simp [hF]), hsub]
        rw [← h1]
        simp [hF]
    · rw [List.filter_cons, if_neg (by simp [hid])] at h
      rw [List.filter_cons, if_neg (by simp [hid])]
      exact ih h

theorem flatten_map_if {α β : Type} (l : List α) (q : α → Bool) (f : α → β) :
    (l.map (fun a => if q a then [f a] else [])).flatten = (l.filter q).map f := by
  induction l with
  | nil => rfl
  | cons a rest ih =>
    rw [List.map_cons, List.flatten_cons, List.filter_cons, ih]
    by_cases hq : q a
    · simp [hq]
    · simp [hq]


theorem mapKeys_gpairsOf (s : Service) : mapKeys (gpairsOf s) = mapKeys s.getters := by
  simp [mapKeys, gpairsOf]

theorem mapKeys_spairsOf (s : Service) : mapKeys (spairsOf s) = mapKeys s.setters := by
  simp [mapKeys, spairsOf]

theorem mapKeys_append {K V : Type} (l1 l2 : Map K V) :
    mapKeys (l1 ++ l2) = mapKeys l1 ++ mapKeys l2 := by
  simp [mapKeys]

theorem mapKeys_reverse {K V : Type} (l : Map K V) :
    mapKeys l.reverse = (mapKeys l).reverse := by
  simp [mapKeys]

theorem mapKeys_flatten_gpairs (L : List Service) :
    mapKeys ((L.map gpairsOf).flatten) = (L.map (fun s => mapKeys s.getters)).flatten := by
  induction L with
  | nil => rfl
  | cons s rest ih => simp [List.flatten, mapKeys_append, mapKeys_gpairsOf, ih]

theorem mapKeys_flatten_spairs (L : List Service) :
    mapKeys ((L.map spairsOf).flatten) = (L.map (fun s => mapKeys s.setters)).flatten := by
  induction L with
  | nil => rfl
  | cons s rest ih => simp [List.flatten, mapKeys_append, mapKeys_spairsOf, ih]

theorem eraseFold_restore_mid {K V : Type} [DecidableEq K] (pairs A m : Map K V)
    (hA : ∀ p ∈ pairs, p.1 ∉ mapKeys A)
    (hm : ∀ p ∈ pairs, p.1 ∉ mapKeys m)
    (hnd : (pairs.map (·.1)).Nodup) :
    (pairs.map (·.1)).foldl mapErase (A ++ pairs.reverse ++ m) = A ++ m := by
  induction pairs generalizing m with
  | nil => simp
  | cons p rest ih =>
    obtain ⟨pk, pv⟩ := p
    simp only [List.map_cons, List.foldl_cons, List.reverse_cons, List.append_assoc,
      List.singleton_append]
    have hnotrev : pk ∉ mapKeys rest.reverse := by
      simp only [List.map_cons, List.nodup_cons, List.mem_map] at hnd
      simp only [mapKeys, List.map_reverse, List.mem_reverse, List.mem_map]
      exact fun ⟨q, hq, hqe⟩ => hnd.1 ⟨q, hq, hqe⟩
    have hAhead : pk ∉ mapKeys A := hA (pk, pv) (List.mem_cons_self _ _)
    rw [mapErase_append_left A (rest.reverse ++ ((pk, pv) :: m)) pk hAhead,
      mapErase_append_left rest.reverse ((pk, pv) :: m) pk hnotrev, mapErase_cons_self]
    have := ih m (fun q hq => hA q (List.mem_cons_of_mem _ hq))
      (fun q hq => hm q (List.mem_cons_of_mem _ hq)) (List.Nodup.of_cons hnd)
    simpa [List.append_assoc] using this

theorem mapKeys_sidPairs (L : List Service) :
    mapKeys (L.map (fun s => (s.id, s))) = L.map (fun s => s.id) := by
  simp [mapKeys]

theorem mapKeys_sidUnits (L : List Service) :
    mapKeys (L.map (fun s => (s.id, ()))) = L.map (fun s => s.id) := by
  simp [mapKeys]

theorem removeService_stack (st : ManagerState) (aid : AdapterId) (svc : Service)
    (L : List Service) (hWF : servicesWellFormed st (svc :: L)) :
    removeService (stackServices st aid (svc :: L)) aid svc.id =
      (.ok (), stackServices st aid L) := by
  obtain ⟨hnd_ids, hfresh_sv, hnd_g, hfresh_g, hnd_z, hfresh_z⟩ := hWF
  simp only [List.map_cons, List.nodup_cons] at hnd_ids
  simp only [List.map_cons, List.flatten_cons, List.nodup_append] at hnd_g hnd_z
  have hid_notL : svc.id ∉ L.map (fun s => s.id) := hnd_ids.1
  have hid_notSt : svc.id ∉ mapKeys st.serviceById :=
    hfresh_sv svc (List.mem_cons_self _ _)
  have hid_notRev : svc.id ∉ mapKeys ((L.map (fun s => (s.id, s))).reverse) := by
    rw [mapKeys_reverse, mapKeys_sidPairs]
    simpa using hid_notL
  have hid_notRevU : svc.id ∉ mapKeys ((L.map (fun s => (s.id, ()))).reverse) := by
    rw [mapKeys_reverse, mapKeys_sidUnits]
    simpa using hid_notL
  have hfind : mapFind? ((L.map (fun s => (s.id, s))).reverse ++
      ((svc.id, svc) :: st.serviceById)) svc.id = some svc := by
    rw [mapFind?_append_of_none _ _ _ ((mapFind?_eq_none_iff _ _).mpr hid_notRev)]
    simp [mapFind?]
  have herase : mapErase ((L.map (fun s => (s.id, s))).reverse ++
      ((svc.id, svc) :: st.serviceById)) svc.id =
      (L.map (fun s => (s.id, s))).reverse ++ st.serviceById := by
    rw [mapErase_append_left _ _ _ hid_notRev, mapErase_cons_self]
  have hkg : (gpairsOf svc).map (fun p => p.1) = mapKeys svc.getters := by
    simp [gpairsOf, mapKeys]
  have hkz : (spairsOf svc).map (fun p => p.1) = mapKeys svc.setters := by
    simp [spairsOf, mapKeys]
  have hgfold : (mapKeys svc.getters).foldl mapErase
      ((L.map gpairsOf).flatten.reverse ++ ((gpairsOf svc).reverse ++ st.getterById)) =
      (L.map gpairsOf).flatten.reverse ++ st.getterById := by
    have hmid := eraseFold_restore_mid (gpairsOf svc) ((L.map gpairsOf).flatten.reverse)
      st.getterById
      (by
        intro p hp
        rw [mapKeys_reverse, mapKeys_flatten_gpairs]
        intro hmem
        rw [List.mem_reverse] at hmem
        exact hnd_g.2.2 (by
          rw [← hkg]
          exact List.mem_map.mpr ⟨p, hp, rfl⟩) hmem)
      (by
        intro p hp
        refine hfresh_g p.1 ?_
        simp only [List.map_cons, List.flatten_cons, List.mem_append]
        exact Or.inl (by rw [← hkg]; exact List.mem_map.mpr ⟨p, hp, rfl⟩))
      (by rw [hkg]; exact hnd_g.1)
    rw [← hkg]
    simpa [List.append_assoc] using hmid
  have hzfold : (mapKeys svc.setters).foldl mapErase
      ((L.map spairsOf).flatten.reverse ++ ((spairsOf svc).reverse ++ st.setterById)) =
      (L.map spairsOf).flatten.reverse ++ st.setterById := by
    have hmid := eraseFold_restore_mid (spairsOf svc) ((L.map spairsOf).flatten.reverse)
      st.setterById
      (by
        intro p hp
        rw [mapKeys_reverse, mapKeys_flatten_spairs]
        intro hmem
        rw [List.mem_reverse] at hmem
        exact hnd_z.2.2 (by
          rw [← hkz]
          exact List.mem_map.mpr ⟨p, hp, rfl⟩) hmem)
      (by
        intro p hp
        refine hfresh_z p.1 ?_
        simp only [List.map_cons, List.flatten_cons, List.mem_append]
        exact Or.inl (by rw [← hkz]; exact List.mem_map.mpr ⟨p, hp, rfl⟩))
      (by rw [hkz]; exact hnd_z.1)
    rw [← hkz]
    simpa [List.append_assoc] using hmid
  have hfa : mapFind? (((aid, (⟨(L.map (fun s => (s.id, ()))).reverse ++ [(svc.id, ())]⟩ :
      AdapterData)) :: st.adapterById)) aid =
      some ⟨(L.map (fun s => (s.id, ()))).reverse ++ [(svc.id, ())]⟩ := by
    simp [mapFind?]
  have hcont : mapContains ((L.map (fun s => (s.id, ()))).reverse ++ [(svc.id, ())]) svc.id =
      true := by
    unfold mapContains
    rw [mapFind?_append_of_none _ _ _ ((mapFind?_eq_none_iff _ _).mpr hid_notRevU)]
    simp [mapFind?]
  have heraseU : mapErase ((L.map (fun s => (s.id, ()))).reverse ++ [(svc.id, ())]) svc.id =
      (L.map (fun s => (s.id, ()))).reverse := by
    rw [mapErase_append_left _ _ _ hid_notRevU, mapErase_cons_self, List.append_nil]
  simp only [stackServices, removeService, auxRemoveService, List.map_cons, List.flatten_cons,
    List.reverse_cons, List.reverse_append, List.append_assoc, List.singleton_append,
    hfind, herase, hgfold, hzfold, hfa, hcont, if_true, mapModify, if_pos, heraseU]

theorem foldl_cons_rev {α : Type} (l m : List α) :
    l.foldl (fun acc p => p :: acc) m = l.reverse ++ m := by
  induction l generalizing m with
  | nil => rfl
  | cons a rest ih => simp [List.foldl_cons, ih, List.reverse_cons, List.append_assoc]

theorem insertInMap_ok {K V : Type} [DecidableEq K] (m : Map K V) (pairs : List (K × V))
    (r : Map K V) (h : insertInMap m pairs = .ok r) :
    r = pairs.reverse ++ m ∧ ∀ p ∈ pairs, p.1 ∉ mapKeys m := by
  unfold insertInMap at h
  split at h
  · exact absurd h (by simp)
  next hnone =>
    refine ⟨?_, ?_⟩
    · injection h with h
      rw [← h, foldl_cons_rev]
    · intro p hp
      have hnc := List.find?_eq_none.mp hnone p hp
      have hfn : mapFind? m p.1 = none := by
        simpa [mapContains, Option.not_isSome_iff_eq_none] using hnc
      exact (mapFind?_eq_none_iff m p.1).mp hfn

theorem servicesWellFormed_nil (st : ManagerState) : servicesWellFormed st [] := by
  simp [servicesWellFormed]

theorem servicesWellFormed_tail (st : ManagerState) (svc : Service) (L : List Service)
    (h : servicesWellFormed st (svc :: L)) : servicesWellFormed st L := by
  obtain ⟨h1, h2, h3, h4, h5, h6⟩ := h
  simp only [List.map_cons, List.nodup_cons] at h1
  simp only [List.map_cons, List.flatten_cons, List.nodup_append] at h3 h5
  refine ⟨h1.2, fun s hs => h2 s (List.mem_cons_of_mem _ hs), h3.2.1, ?_, h5.2.1, ?_⟩
  · intro k hk
    exact h4 k (by simp only [List.map_cons, List.flatten_cons, List.mem_append]; exact Or.inr hk)
  · intro k hk
    exact h6 k (by simp only [List.map_cons, List.flatten_cons, List.mem_append]; exact Or.inr hk)

theorem servicesWellFormed_snoc (st : ManagerState) (L : List Service) (svc : Service)
    (hWF : servicesWellFormed st L)
    (hndg : (mapKeys svc.getters).Nodup) (hndz : (mapKeys svc.setters).Nodup)
    (hfs1 : svc.id ∉ L.map (fun s => s.id)) (hfs2 : svc.id ∉ mapKeys st.serviceById)
    (hfg : ∀ k ∈ mapKeys svc.getters,
      k ∉ (L.map (fun s => mapKeys s.getters)).flatten ∧ k ∉ mapKeys st.getterById)
    (hfz : ∀ k ∈ mapKeys svc.setters,
      k ∉ (L.map (fun s => mapKeys s.setters)).flatten ∧ k ∉ mapKeys st.setterById) :
    servicesWellFormed st (L ++ [svc]) := by
  obtain ⟨h1, h2, h3, h4, h5, h6⟩ := hWF
  refine ⟨?_, ?_, ?_, ?_, ?_, ?_⟩
  · simp only [List.map_append, List.map_cons, List.map_nil, List.nodup_append,
      List.nodup_cons, List.not_mem_nil, not_false_iff, List.nodup_nil, true_and, and_true]
    refine ⟨h1, ?_⟩
    intro a ha hmem
    simp only [List.mem_cons, List.not_mem_nil, or_false] at hmem
    exact hfs1 (hmem ▸ ha)
  · intro s hs
    rcases List.mem_append.mp hs with hL | hsv
    · exact h2 s hL
    · simp only [List.mem_cons, List.not_mem_nil, or_false] at hsv
      exact hsv ▸ hfs2
  · simp only [List.map_append, List.map_cons, List.map_nil, List.flatten_append,
      List.flatten_cons, List.flatten_nil, List.append_nil, List.nodup_append]
    exact ⟨h3, hndg, fun a ha hk => (hfg a hk).1 ha⟩
  · intro k hk
    simp only [List.map_append, List.map_cons, List.map_nil, List.flatten_append,
      List.flatten_cons, List.flatten_nil, List.append_nil, List.mem_append] at hk
    rcases hk with hL | hsv
    · exact h4 k hL
    · exact (hfg k hsv).2
  · simp only [List.map_append, List.map_cons, List.map_nil, List.flatten_append,
      List.flatten_cons, List.flatten_nil, List.append_nil, List.nodup_append]
    exact ⟨h5, hndz, fun a ha hk => (hfz a hk).1 ha⟩
  · intro k hk
    simp only [List.map_append, List.map_cons, List.map_nil, List.flatten_append,
      List.flatten_cons, List.flatten_nil, List.append_nil, List.mem_append] at hk
    rcases hk with hL | hsv
    · exact h6 k hL
    · exact (hfz k hsv).2

theorem rollback_stack (st : ManagerState) (aid : AdapterId) (L : List Service)
    (hWF : servicesWellFormed st L) :
    (L.map (fun s => s.id)).foldl (fun s sid => (removeService s aid sid).2)
      (stackServices st aid L) = stackServices st aid [] := by
  induction L with
  | nil => rfl
  | cons svc rest ih =>
    simp only [List.map_cons, List.foldl_cons]
    rw [show (removeService (stackServices st aid (svc :: rest)) aid svc.id).2 =
        stackServices st aid rest from by rw [removeService_stack st aid svc rest hWF]]
    exact ih (servicesWellFormed_tail st svc rest hWF)

theorem addService_ok_stack (st : ManagerState) (aid : AdapterId) (L : List Service)
    (svc : Service) (u : Unit) (st2 : ManagerState)
    (h : addService (stackServices st aid L) aid svc = (.ok u, st2)) :
    st2 = stackServices st aid (L ++ [svc]) ∧
    svc.id ∉ L.map (fun s => s.id) ∧ svc.id ∉ mapKeys st.serviceById ∧
    (∀ k ∈ mapKeys svc.getters,
      k ∉ (L.map (fun s => mapKeys s.getters)).flatten ∧ k ∉ mapKeys st.getterById) ∧
    (∀ k ∈ mapKeys svc.setters,
      k ∉ (L.map (fun s => mapKeys s.setters)).flatten ∧ k ∉ mapKeys st.setterById) := by
  unfold addService at h
  split at h
  · simp at h
  split at h
  · simp at h
  next getterById' heqg =>
  split at h
  · simp at h
  split at h
  · simp at h
  next setterById' heqz =>
  split at h
  · simp at h
  next data heqa =>
  split at h
  · simp at h
  next services' heqs =>
  split at h
  · simp at h
  next serviceById' heqsv =>
  simp only [Prod.mk.injEq, Except.ok.injEq] at h
  obtain ⟨hg_eq, hg_fresh⟩ := insertInMap_ok _ _ _ heqg
  obtain ⟨hz_eq, hz_fresh⟩ := insertInMap_ok _ _ _ heqz
  obtain ⟨hs_eq, hs_fresh⟩ := insertInMap_ok _ _ _ heqs
  obtain ⟨hsv_eq, hsv_fresh⟩ := insertInMap_ok _ _ _ heqsv
  have hdata : data = (⟨(L.map (fun s => (s.id, ()))).reverse⟩ : AdapterData) := by
    simp only [stackServices, mapFind?, if_pos rfl] at heqa
    exact (Option.some.injEq _ _ ▸ heqa).symm
  have hsid := hsv_fresh (svc.id, svc) (List.mem_cons_self _ _)
  rw [show (stackServices st aid L).serviceById =
      (L.map (fun s => (s.id, s))).reverse ++ st.serviceById from rfl,
    mapKeys_append, mapKeys_reverse, mapKeys_sidPairs] at hsid
  simp only [List.mem_append, List.mem_reverse, not_or] at hsid
  have hgk : ∀ k ∈ mapKeys svc.getters,
      k ∉ (L.map (fun s => mapKeys s.getters)).flatten ∧ k ∉ mapKeys st.getterById := by
    intro k hk
    obtain ⟨q, hq, hqe⟩ := List.mem_map.mp hk
    have := hg_fresh (q.1, GetterData.new q.2) (List.mem_map.mpr ⟨q, hq, rfl⟩)
    rw [show (stackServices st aid L).getterById =
        (L.map gpairsOf).flatten.reverse ++ st.getterById from rfl,
      mapKeys_append, mapKeys_reverse, mapKeys_flatten_gpairs] at this
    simp only [List.mem_append, List.mem_reverse, not_or] at this
    exact hqe ▸ this
  have hzk : ∀ k ∈ mapKeys svc.setters,
      k ∉ (L.map (fun s => mapKeys s.setters)).flatten ∧ k ∉ mapKeys st.setterById := by
    intro k hk
    obtain ⟨q, hq, hqe⟩ := List.mem_map.mp hk
    have := hz_fresh (q.1, SetterData.mk q.2) (List.mem_map.mpr ⟨q, hq, rfl⟩)
    rw [show (stackServices st aid L).setterById =
        (L.map spairsOf).flatten.reverse ++ st.setterById from rfl,
      mapKeys_append, mapKeys_reverse, mapKeys_flatten_spairs] at this
    simp only [List.mem_append, List.mem_reverse, not_or] at this
    exact hqe ▸ this
  refine ⟨?_, hsid.1, hsid.2, hgk, hzk⟩
  rw [← h.2, hg_eq, hz_eq, hsv_eq, hs_eq, hdata]
  simp only [stackServices, List.map_append, List.map_cons, List.map_nil,
    List.flatten_append, List.flatten_cons, List.flatten_nil, List.append_nil,
    List.reverse_append, List.reverse_cons, List.reverse_nil, List.nil_append,
    List.singleton_append, List.append_assoc, mapModify, if_pos rfl]
  simp [gpairsOf, spairsOf]

theorem addAdapterGo_error_stack (st : ManagerState) (aid : AdapterId)
    (rest : List Service) (e : AdapterError) (st' : ManagerState) (L : List Service)
    (hWF : servicesWellFormed st L)
    (hnd : ∀ svc ∈ rest, (mapKeys svc.getters).Nodup ∧ (mapKeys svc.setters).Nodup)
    (h : addAdapterGo aid rest (L.map (fun s => s.id)) (stackServices st aid L)
      = (.error e, st')) :
    st' = st := by
  induction rest generalizing L with
  | nil => simp [addAdapterGo] at h
  | cons svc rest ih =>
    rw [addAdapterGo] at h
    split at h
    next u stNext heq =>
      obtain ⟨hst, _, _, _, _⟩ := addService_ok_stack st aid L svc u stNext heq
      rw [hst, show L.map (fun s => s.id) ++ [svc.id] =
        (L ++ [svc]).map (fun s => s.id) by simp] at h
      have hWF' : servicesWellFormed st (L ++ [svc]) := by
        obtain ⟨-, hfs1, hfs2, hfg, hfz⟩ := addService_ok_stack st aid L svc u stNext heq
        exact servicesWellFormed_snoc st L svc hWF
          (hnd svc (List.mem_cons_self _ _)).1 (hnd svc (List.mem_cons_self _ _)).2
          hfs1 hfs2 hfg hfz
      exact ih (L ++ [svc]) hWF' (fun s hs => hnd s (List.mem_cons_of_mem _ hs)) h
    next e0 stErr heq =>
      have hErr : stErr = stackServices st aid L :=
        addService_error_unchanged _ _ _ _ _ heq
      subst hErr
      rw [rollback_stack st aid L hWF] at h
      simp only [stackServices, List.map_nil, List.reverse_nil, List.flatten_nil,
        List.nil_append, mapErase_cons_self, Prod.mk.injEq] at h
      exact h.2.symm

theorem addAdapter_error_rolls_back (st : ManagerState) (aid : AdapterId)
    (svcs : List Service)
    (hnd : ∀ svc ∈ svcs, (mapKeys svc.getters).Nodup ∧ (mapKeys svc.setters).Nodup)
    (e : AdapterError) (st' : ManagerState)
    (h : addAdapter st aid svcs = (.error e, st')) : st' = st := by
  unfold addAdapter at h
  split at h
  · simp only [Prod.mk.injEq] at h
    exact h.2.symm
  · have hnil : ({ st with adapterById := (aid, (⟨[]⟩ : AdapterData)) :: st.adapterById })
        = stackServices st aid [] := rfl
    rw [hnil] at h
    exact addAdapterGo_error_stack st aid svcs e st' [] (servicesWellFormed_nil st) hnd h

/-- C1 counterexample: the claim "every failed mutator leaves the store unchanged"
is false.  In the store `stC1` (adapter `a1` owning service `s1`),
`remove_service("a2", "s1")` returns `NoSuchAdapter("a2")` and yet the store has
changed: `aux_remove_service` already deleted `s1` from the global service table
before the adapter lookup failed (backend.rs:421-433). -/
theorem c1_remove_service_error_mutates :
    (removeService stC1 "a2" "s1").1 = .error (.noSuchAdapter "a2") ∧
    (removeService stC1 "a2" "s1").2 ≠ stC1 ∧
    (removeService stC1 "a2" "s1").2.serviceById = [] := by decide

/-- C1 (amended): the mutators that either fail before touching any table or
roll their changes back are error-clean.  For every store, if `add_service`,
`add_setter` or `remove_adapter` returns an error the store after the call is
identical to the store before it, and so does `add_adapter` (its
`DuplicateAdapter` early return is untouched and its mid-list service failure
rolls back through `remove_service` exactly, backend.rs:301-315; the services
submitted to it carry HashMap channel tables, so their key lists are
duplicate-free, which is the hypothesis below).  `remove_service`,
`remove_getter` and `remove_setter` may instead mutate the store while
returning an error (documented best-effort cleanup), and `add_getter`'s
duplicate-id failure can leave watcher-coverage links behind. -/
theorem c1_error_paths_leave_store_unchanged (st : ManagerState) :
    (∀ a svc e st', addService st a svc = (.error e, st') → st' = st) ∧
    (∀ c e st', addSetter st c = (.error e, st') → st' = st) ∧
    (∀ a e st', removeAdapter st a = (.error e, st') → st' = st) ∧
    (∀ a svcs e st',
      (∀ svc ∈ svcs, (mapKeys svc.getters).Nodup ∧ (mapKeys svc.setters).Nodup) →
      addAdapter st a svcs = (.error e, st') → st' = st) :=
  ⟨fun a svc e st' h => addService_error_unchanged st a svc e st' h,
   fun c e st' h => addSetter_error_unchanged st c e st' h,
   fun a e st' h => removeAdapter_error_unchanged st a e st' h,
   fun a svcs e st' hnd h => addAdapter_error_rolls_back st a svcs hnd e st' h⟩

/-- C1 witness: the amended theorem applied to concrete erroring calls on `stC1`:
`add_service` under an unregistered adapter, `add_setter` on a missing parent
service, and `remove_adapter` of an unknown id all leave `stC1` unchanged; and
`add_adapter("aX", [svcRb, svcRb])` exercises the rollback path (the first copy
of `svcRb` is added, the second fails with `DuplicateGetter("gR")`, and the
rollback restores `stC1` exactly). -/
theorem c1_error_paths_witness :
    (addService stC1 "a9" svc1).2 = stC1 ∧
    (addSetter stC1 setterOrphan).2 = stC1 ∧
    (removeAdapter stC1 "zz").2 = stC1 ∧
    (addAdapter stC1 "aX" [svcRb, svcRb]).2 = stC1 :=
  ⟨(c1_error_paths_leave_store_unchanged stC1).1 "a9" svc1 (.noSuchAdapter "a9")
      (addService stC1 "a9" svc1).2 (by decide),
   (c1_error_paths_leave_store_unchanged stC1).2.1 setterOrphan (.noSuchService "nope")
      (addSetter stC1 setterOrphan).2 (by decide),
   (c1_error_paths_leave_store_unchanged stC1).2.2.1 "zz" (.noSuchAdapter "zz")
      (removeAdapter stC1 "zz").2 (by decide),
   (c1_error_paths_leave_store_unchanged stC1).2.2.2 "aX" [svcRb, svcRb]
      (.duplicateGetter "gR") (addAdapter stC1 "aX" [svcRb, svcRb]).2
      (by decide) (by decide)⟩

/-- C2: `add_service` of a service with a non-empty getter map does NOT fail with
`InvalidInitialService` — it succeeds and installs the service's getter in the
global index, so `get_getter_channels` returns it afterwards.  The repository's
own test (tests/test_manager.rs:335-343) and the spec demand the rejection; the
check is absent from backend.rs:351-411 (only a `FIXME` marks the watcher side
of bulk-installed getters). -/
theorem c2_add_service_accepts_nonempty_service :
    (addService stC2 "a1" svcC2).1 = .ok () ∧
    (addService stC2 "a1" svcC2).1 ≠ .error .invalidInitialService ∧
    mapContains (addService stC2 "a1" svcC2).2.getterById "g1" = true ∧
    getGetterChannels (addService stC2 "a1" svcC2).2 [{}] = [gchanC2] := by decide

/-- C3 counterexample: the symmetric watcher-link invariant is not preserved by
`remove_getter`.  In `stC3`, watcher 0 and getter `g1` are symmetrically linked
(the invariant holds); `remove_getter("g1")` succeeds yet afterwards `g1` is
still in watcher 0's coverage set while absent from the getter index
(backend.rs:506-521 never touches the watcher records). -/
theorem c3_remove_getter_breaks_symmetric_link :
    watcherLinkInv stC3 = true ∧
    (removeGetter stC3 "g1").1 = .ok () ∧
    watcherLinkInv (removeGetter stC3 "g1").2 = false ∧
    (mapFind? (removeGetter stC3 "g1").2.watchers.watchers 0).map (fun w => w.getters) =
      some ["g1"] := by decide

/-- C3 (amended): `remove_getter` leaves every watcher record — coverage sets,
guards and flags included — completely unchanged, on success as well as on every
error path; it therefore does not detach the removed getter from the watchers
that covered it, and stale coverage entries survive until the watcher itself is
unregistered. -/
theorem c3_remove_getter_preserves_watcher_records (st : ManagerState) (id : GetterId) :
    (removeGetter st id).2.watchers = st.watchers := by
  unfold removeGetter
  split
  · rfl
  · dsimp only
    repeat' split
    all_goals rfl

/-- C4: dropping a `WatchGuard` does not store `true` into `is_dropped` — the
`Drop` impl (backend.rs:227-231) only sends `UnregisterChannelWatch(key)`, and no
store of `true` to the flag exists anywhere in backend.rs, contradicting the
comment at backend.rs:835-836.  Event delivery to the sink still stops once the
unregister instruction has been processed, but only because `trigger_watch` no
longer finds the watcher record (backend.rs:872-881). -/
theorem c4_drop_sends_unregister_without_flag_store :
    (watchGuardDrop guardC4).1.isDropped = false ∧
    (watchGuardDrop guardC4).2 = [ExecuteMsg.unregisterChannelWatchMsg 0] ∧
    triggerWatch stC4 0 (.value "g" (.onOff true)) = some (.value "g" (.onOff true)) ∧
    triggerWatch (unregisterChannelWatch stC4 0) 0 (.value "g" (.onOff true)) = none := by
  decide

/-- C5: when `add_getter` succeeds for a getter matched by a registered watcher
with a value filter, the symmetric back-references are linked — part (a) of the
claim — but NO downstream watch is registered with the owning adapter and no
guard is appended: `aux_add_getter` (backend.rs:469-496) contains only the
comments `FIXME: Notify WatchEvent of topology change` and
`FIXME: register_single_channel_watch_values`, so the watcher's guard list stays
empty and adapter events for the new getter can never reach the sink. -/
theorem c5_add_getter_links_but_registers_no_downstream_watch :
    (addGetter stC5 gchanC5).1 = .ok () ∧
    mapFind? (addGetter stC5 gchanC5).2.getterById "g1" =
      some { getter := gchanC5, watchers := [0] } ∧
    (mapFind? (addGetter stC5 gchanC5).2.watchers.watchers 0).map (fun w => w.getters) =
      some ["g1"] ∧
    (mapFind? (addGetter stC5 gchanC5).2.watchers.watchers 0).map (fun w => w.guards) =
      some [] := by decide

/-- C6: `fetch_channel_values` performs no comparison between the value returned
by the adapter and the channel's declared `ChannelKind`.  Getter `g` is declared
`OnOff`, the adapter returns `OpenClosed`, and the result map carries
`Ok(OpenClosed)` for `g` — not the `Err(TypeError{got, expected})` required by
the spec and by the repository's test (tests/test_manager.rs:1015-1025); the
other channel is unaffected. -/
theorem c6_fetch_forwards_mistyped_value :
    fetchChannelValues envC6 stC6 [{}] =
      [("g", .ok (some (.openClosed true))), ("g2", .ok (some (.onOff true)))] ∧
    gC6.kind = .onOff ∧
    (Value.openClosed true).kind ≠ gC6.kind := by decide

/-- C7: the public `AdapterManager::remove_setter` (manager.rs:198-203) dispatches
`Execute::RemoveGetter`, so for a registered setter `c1` it runs the back-end's
`remove_getter("c1")`, which fails with `NoSuchGetter("c1")` and leaves the store
— and in particular the setter index queried by `get_setter_channels` — exactly
as it was: the setter is never removed and no success is reported. -/
theorem c7_manager_remove_setter_removes_nothing :
    (managerRemoveSetter stC7 "c1").1 = .error (.noSuchGetter "c1") ∧
    (managerRemoveSetter stC7 "c1").2 = stC7 ∧
    getSetterChannels (managerRemoveSetter stC7 "c1").2 [{}] = [setterC7] := by decide

/-- C8: every tag mutator returns the number of entities matched by the selector
list — the count formula does not mention the tag list at all — and tag
application is idempotent set insertion / removal: after `insert_tags` a tag is
present iff it was present before or is among the added tags, and after
`remove_tags` iff it was present before and is not among the removed ones, so
re-adding an existing tag (or removing a missing one) leaves the tag set correct
while the entity is still counted. -/
theorem c8_tag_ops_count_matched_entities (st : ManagerState)
    (ssel : List ServiceSelector) (gsel : List GetterSelector) (zsel : List SetterSelector)
    (ts : List Tag) :
    (addServiceTags st ssel ts).1 =
      (st.serviceById.filter (fun p => ssel.any (fun sel => sel.matchesService p.2))).length ∧
    (removeServiceTags st ssel ts).1 =
      (st.serviceById.filter (fun p => ssel.any (fun sel => sel.matchesService p.2))).length ∧
    (addGetterTags st gsel ts).1 =
      (st.getterById.filter (fun p => gsel.any (fun sel => sel.matchesChan p.2.getter))).length ∧
    (removeGetterTags st gsel ts).1 =
      (st.getterById.filter (fun p => gsel.any (fun sel => sel.matchesChan p.2.getter))).length ∧
    (addSetterTags st zsel ts).1 =
      (st.setterById.filter (fun p => zsel.any (fun sel => sel.matchesChan p.2.setter))).length ∧
    (removeSetterTags st zsel ts).1 =
      (st.setterById.filter (fun p => zsel.any (fun sel => sel.matchesChan p.2.setter))).length ∧
    (∀ t cur, t ∈ insertTags ts cur ↔ t ∈ cur ∨ t ∈ ts) ∧
    (∀ t cur, t ∈ removeTagsList ts cur ↔ t ∈ cur ∧ t ∉ ts) :=
  ⟨tagFold_count _ _ _, tagFold_count _ _ _, tagFold_count _ _ _, tagFold_count _ _ _,
   tagFold_count _ _ _, tagFold_count _ _ _,
   fun t cur => insertTags_mem ts cur t, fun t cur => removeTagsList_mem ts cur t⟩

/-- C9 counterexample: add-then-remove of a getter does NOT restore the store
when a registered watcher matches it.  In `stC9` (match-all watcher with empty
coverage), `add_getter(g1)` links the watcher and `remove_getter(g1)` succeeds,
but the watcher record still carries `g1` in its coverage set afterwards, so the
final store differs from the initial one. -/
theorem c9_getter_roundtrip_not_restored :
    (addGetter stC9 gC9).1 = .ok () ∧
    (removeGetter (addGetter stC9 gC9).2 "g1").1 = .ok () ∧
    (removeGetter (addGetter stC9 gC9).2 "g1").2 ≠ stC9 ∧
    (mapFind? (removeGetter (addGetter stC9 gC9).2 "g1").2.watchers.watchers 0).map
      (fun w => w.getters) = some ["g1"] := by decide

/-- C9 (amended): under the expected freshness conditions, add-then-remove
restores the store exactly for adapters (added without initial services),
services and setters, and double-removal yields the corresponding `NoSuch…`
error; for getters the four entity tables are restored and the double-removal
error holds, but the watcher records keep whatever coverage links `add_getter`
created, so the store as a whole is only restored when no watcher matched the
getter. -/
theorem c9_add_remove_roundtrips (st : ManagerState)
    (aid : AdapterId) (a : AdapterId) (svc : Service) (data : AdapterData)
    (g : GetterChannel) (c : SetterChannel) (gsvc csvc : Service)
    (haid : mapContains st.adapterById aid = false)
    (hd : mapFind? st.adapterById a = some data)
    (hsid1 : svc.id ∉ mapKeys st.serviceById)
    (hsid2 : svc.id ∉ mapKeys data.services)
    (hg : ∀ p ∈ svc.getters, p.1 ∉ mapKeys st.getterById ∧ p.2.adapter = a)
    (hs : ∀ p ∈ svc.setters, p.1 ∉ mapKeys st.setterById ∧ p.2.adapter = a)
    (hndg : (mapKeys svc.getters).Nodup) (hnds : (mapKeys svc.setters).Nodup)
    (hgf : mapFind? st.serviceById g.service = some gsvc)
    (hgadap : gsvc.adapter = g.adapter)
    (hgf1 : g.id ∉ mapKeys gsvc.getters) (hgf2 : g.id ∉ mapKeys st.getterById)
    (hcf : mapFind? st.serviceById c.service = some csvc)
    (hcadap : csvc.adapter = c.adapter)
    (hcf1 : c.id ∉ mapKeys csvc.setters) (hcf2 : c.id ∉ mapKeys st.setterById) :
    (addAdapter st aid [] = (.ok (), { st with adapterById := (aid, ⟨[]⟩) :: st.adapterById }) ∧
     removeAdapter { st with adapterById := (aid, ⟨[]⟩) :: st.adapterById } aid = (.ok (), st) ∧
     (removeAdapter st aid).1 = .error (.noSuchAdapter aid)) ∧
    ((addService st a svc).1 = .ok () ∧
     removeService (addService st a svc).2 a svc.id = (.ok (), st) ∧
     (removeService st a svc.id).1 = .error (.noSuchService svc.id)) ∧
    ((addSetter st c).1 = .ok () ∧
     removeSetter (addSetter st c).2 c.id = (.ok (), st) ∧
     (removeSetter st c.id).1 = .error (.noSuchSetter c.id)) ∧
    ((addGetter st g).1 = .ok () ∧
     (removeGetter (addGetter st g).2 g.id).1 = .ok () ∧
     (removeGetter (addGetter st g).2 g.id).2.adapterById = st.adapterById ∧
     (removeGetter (addGetter st g).2 g.id).2.serviceById = st.serviceById ∧
     (removeGetter (addGetter st g).2 g.id).2.getterById = st.getterById ∧
     (removeGetter (addGetter st g).2 g.id).2.setterById = st.setterById ∧
     (removeGetter (addGetter st g).2 g.id).2.watchers = (addGetter st g).2.watchers ∧
     (removeGetter st g.id).1 = .error (.noSuchGetter g.id)) :=
  ⟨adapter_roundtrip_restores st aid haid,
   service_roundtrip_restores st a svc data hd hsid1 hsid2 hg hs hndg hnds,
   setter_roundtrip_restores st c csvc hcf hcadap hcf1 hcf2,
   getter_roundtrip_restores st g gsvc hgf hgadap hgf1 hgf2⟩

/-- C9 witness: the amended round trips instantiated on the concrete store
`stC9w` (adapter `a1` owning the empty service `s1`) with a fresh adapter `a2`,
a fresh service `s9` carrying one getter, and fresh channels `g1` / `c1`. -/
theorem c9_add_remove_roundtrips_witness :
    removeService (addService stC9w "a1" svcC9w).2 "a1" "s9" = (.ok (), stC9w) ∧
    removeSetter (addSetter stC9w setterC9w).2 "c1" = (.ok (), stC9w) ∧
    (removeGetter (addGetter stC9w getterC9w).2 "g1").1 = .ok () ∧
    addAdapter stC9w "a2" [] =
      (.ok (), { stC9w with adapterById := ("a2", ⟨[]⟩) :: stC9w.adapterById }) :=
  have h := c9_add_remove_roundtrips stC9w "a2" "a1" svcC9w ⟨[("s1", ())]⟩ getterC9w setterC9w
    svc1 svc1 (by decide) (by decide) (by decide) (by decide) (by decide) (by decide)
    (by decide) (by decide) (by decide) (by decide) (by decide) (by decide) (by decide)
    (by decide) (by decide) (by decide)
  ⟨h.2.1.2.1, h.2.2.1.2.1, h.2.2.2.2.1, h.1.1⟩

/-- C10: in one `send_values` call, every input entry contributes exactly one
`(setter-id, value)` pair to the batch dispatched to the owning adapter for each
setter its selectors match, and the pairs targeting one setter appear in the
batch in the order of the input entries: for a setter `sd` (the unique entry of
the setter index carrying its id), the sub-list of the owning adapter's payload
addressed to `sd` equals the values of the entries whose selectors match `sd`,
in input order. -/
theorem c10_send_batch_per_setter (st : ManagerState)
    (kvs : List (List SetterSelector × Value)) (sd : SetterData)
    (h : (st.setterById.filter (fun p => p.2.setter.id = sd.setter.id)).map (fun p => p.2) =
      [sd]) :
    payloadFor (sendPayloads st kvs) sd.setter.adapter sd.setter.id =
      (kvs.filter (fun kv => entryMatchesSetter kv.1 sd)).map (fun kv => (sd.setter.id, kv.2)) := by
  rw [sendPayloads_char]
  have hcoll : ∀ (kv : List SetterSelector × Value),
      (st.setterById.filter (fun p => kv.1.any (fun sel => sel.matchesChan p.2.setter) &&
          (p.2.setter.adapter = sd.setter.adapter) && (p.2.setter.id = sd.setter.id))).map
        (fun _ => (sd.setter.id, kv.2)) =
      if entryMatchesSetter kv.1 sd then [(sd.setter.id, kv.2)] else [] := by
    intro kv
    have hc := filter_unique_collapse st.setterById sd sd.setter.id h
      (fun v => kv.1.any (fun sel => sel.matchesChan v.setter) &&
        (v.setter.adapter = sd.setter.adapter))
      (sd.setter.id, kv.2)
    simpa [entryMatchesSetter] using hc
  rw [List.map_congr_left (fun kv _ => hcoll kv)]
  rw [flatten_map_if]

/-- C10 witness: on `stC10`, the three entries of `kvsC10` produce for setter
`sA` (owned by adapter `a1`) the batch sub-list `[On, Off, On]` in entry order —
the middle tag-selector entry matches `sA` but not `sB`. -/
theorem c10_send_batch_per_setter_witness :
    payloadFor (sendPayloads stC10 kvsC10) "a1" "sA" =
      [("sA", .onOff true), ("sA", .onOff false), ("sA", .onOff true)] :=
  (c10_send_batch_per_setter stC10 kvsC10 ⟨setterC10a⟩ (by decide)).trans (by decide)
